import Mathlib

/-!
# Verification of the BPMN property/validation engine

Shallow embedding of the property-schema, validation and business-rule
engine of the `bpmn-angular-integration-examples` repository
(`src/app/services/validation.service.ts`, the enhanced
`CustomPropertiesService` bundled in the same file, the schema registry
`element-schemas.ts`, the data model `bpmn-elements.model.ts`, and the
enhanced `PropertiesPanelComponent`).

Modelling conventions:
* Runtime JavaScript values are embedded as the inductive `JSValue`
  (numbers as `Int`; the schemas and rules under verification only use
  integral numbers, and no claim depends on float rounding or `NaN`
  beyond `parseFloat` failure, which is threaded through `JsPlatform`).
* JS objects are association lists in insertion order (`Obj`); key
  update keeps the position of an existing key and appends a fresh one,
  matching both JS object literals/assignment and `Map.set`.
* Host functionality that cannot be embedded (arbitrary `RegExp.test`,
  `new URL`, `parseFloat`, `JSON.parse`, user-supplied custom validator
  closures) is abstracted as the `JsPlatform` parameter; every theorem
  quantifies over it, and witnesses instantiate an explicit stub.
* The dynamic business-rule condition evaluator (`evaluateExpression`)
  is embedded concretely: the word-boundary substitution of context
  keys, and a tokenizer/recursive-descent evaluator for the expression
  subset actually exercised by the repository's rule conditions
  (identifiers, string literals, `!`, `&&`, `||`, `===`, member access
  on the bound `context` object, parentheses).  Anything outside that
  subset (e.g. regex literals) evaluates to an error, which the code
  under verification converts to `false` exactly as the TypeScript
  `try/catch` does.
-/

/-- Embedded JavaScript runtime value. -/
inductive JSValue where
  | null
  | undefined
  | bool (b : Bool)
  | num (n : Int)
  | str (s : String)
  | arr (elems : List JSValue)
  | obj (fields : List (String × JSValue))

/-- A JS object: fields in insertion order. -/
abbrev Obj := List (String × JSValue)

/-- Reading `o[k]`: first binding wins (an `Obj` built by `objSet` has
no duplicate keys); a missing key reads as `undefined`. -/
def objGet (o : Obj) (k : String) : JSValue :=
  match o.find? (fun kv => kv.1 == k) with
  | some kv => kv.2
  | none => JSValue.undefined

/-- Writing `o[k] = v`: overwrite in place if the key exists, append
otherwise (JS object assignment / `Map.set` insertion-order semantics). -/
def objSet (o : Obj) (k : String) (v : JSValue) : Obj :=
  match o with
  | [] => [(k, v)]
  | (k', v') :: rest =>
    if k' == k then (k', v) :: rest else (k', v') :: objSet rest k v

/-- `Object.keys` (insertion order). -/
def objKeys (o : Obj) : List String :=
  o.map (·.1)

/-- `typeof value`. -/
def jsTypeof : JSValue → String
  | JSValue.null => "object"
  | JSValue.undefined => "undefined"
  | JSValue.bool _ => "boolean"
  | JSValue.num _ => "number"
  | JSValue.str _ => "string"
  | JSValue.arr _ => "object"
  | JSValue.obj _ => "object"

/-- JS truthiness (`Boolean(value)`). -/
def truthy : JSValue → Bool
  | JSValue.null => false
  | JSValue.undefined => false
  | JSValue.bool b => b
  | JSValue.num n => n != 0
  | JSValue.str s => s ≠ ""
  | JSValue.arr _ => true
  | JSValue.obj _ => true

mutual

/-- Structural value equality, used for `Array.prototype.includes`
(SameValueZero) and `===`.  The schemas only ever compare primitive
values (strings, numbers, booleans), on which this coincides exactly
with the JS semantics; reference identity of distinct-but-equal objects
is not observable through any code path embedded here. -/
def beqVal : JSValue → JSValue → Bool
  | JSValue.null, JSValue.null => true
  | JSValue.undefined, JSValue.undefined => true
  | JSValue.bool a, JSValue.bool b => a == b
  | JSValue.num a, JSValue.num b => a == b
  | JSValue.str a, JSValue.str b => a == b
  | JSValue.arr xs, JSValue.arr ys => beqValList xs ys
  | JSValue.obj fs, JSValue.obj gs => beqValFields fs gs
  | _, _ => false

def beqValList : List JSValue → List JSValue → Bool
  | [], [] => true
  | x :: xs, y :: ys => beqVal x y && beqValList xs ys
  | _, _ => false

def beqValFields : List (String × JSValue) → List (String × JSValue) → Bool
  | [], [] => true
  | (k, v) :: fs, (l, w) :: gs => k == l && beqVal v w && beqValFields fs gs
  | _, _ => false

end

/-- `list.includes(v)` (SameValueZero, see `beqVal`). -/
def jsIncludes (vals : List JSValue) (v : JSValue) : Bool :=
  vals.any (fun w => beqVal w v)

/-- `value === null`. -/
def isNull : JSValue → Bool
  | JSValue.null => true
  | _ => false

/-- `value === undefined`. -/
def isUndefined : JSValue → Bool
  | JSValue.undefined => true
  | _ => false

/-- `value === ''`. -/
def isEmptyString : JSValue → Bool
  | JSValue.str s => s == ""
  | _ => false

/-- `Array.isArray(value)`. -/
def isArray : JSValue → Bool
  | JSValue.arr _ => true
  | _ => false

/-- `value.length` of an array (0 elsewhere; only consulted under an
`Array.isArray` guard). -/
def arrayLength : JSValue → Nat
  | JSValue.arr xs => xs.length
  | _ => 0

/-- `Object.keys(value).length` for object-typed values (arrays expose
one key per element, plain objects one key per field; only consulted
under a `typeof value === 'object'` guard on non-null values). -/
def objectKeysCount : JSValue → Nat
  | JSValue.arr xs => xs.length
  | JSValue.obj fs => fs.length
  | _ => 0

/-! ## Data model (`bpmn-elements.model.ts`) -/

/-- `PropertyType` (string enum). -/
inductive PropertyType where
  | text
  | textarea
  | number
  | boolean
  | select
  | multiSelect
  | date
  | datetime
  | time
  | email
  | url
  | file
  | color
  | json
deriving DecidableEq

/-- `ValidationRule`: tagged variant per `rule.type`, carrying the
parameter from `rule.value` and the optional user message.  The
`custom` variant's validator closure is defunctionalised to an
identifier resolved through `JsPlatform.customRun` (the repository's
schemas declare no custom rules, so no theorem depends on a concrete
validator). -/
inductive VRule where
  | required (message : Option String)
  | minLength (n : Int) (message : Option String)
  | maxLength (n : Int) (message : Option String)
  | minRule (n : Int) (message : Option String)
  | maxRule (n : Int) (message : Option String)
  | patternRule (p : String) (message : Option String)
  | email (message : Option String)
  | url (message : Option String)
  | custom (validatorId : Option String) (message : Option String)

/-- `rule.type` as recorded on a `PropertyValidationError`. -/
def VRule.tag : VRule → String
  | VRule.required _ => "required"
  | VRule.minLength _ _ => "minLength"
  | VRule.maxLength _ _ => "maxLength"
  | VRule.minRule _ _ => "min"
  | VRule.maxRule _ _ => "max"
  | VRule.patternRule _ _ => "pattern"
  | VRule.email _ => "email"
  | VRule.url _ => "url"
  | VRule.custom _ _ => "custom"

/-- `rule.message` (undefined on some rules). -/
def VRule.message : VRule → Option String
  | VRule.required m => m
  | VRule.minLength _ m => m
  | VRule.maxLength _ m => m
  | VRule.minRule _ m => m
  | VRule.maxRule _ m => m
  | VRule.patternRule _ m => m
  | VRule.email m => m
  | VRule.url m => m
  | VRule.custom _ m => m

/-- `conditional` clause of a `PropertyDefinition`. -/
structure ConditionalClause where
  dependsOn : String
  values : List JSValue

/-- `PropertyDefinition`.  Presentation-only fields that no embedded
operation reads (`description`, `placeholder`, `options`, `readonly`)
are omitted. -/
structure PropertyDefinition where
  id : String
  name : String
  ptype : PropertyType
  label : String
  defaultValue : Option JSValue
  validation : List VRule
  group : Option String
  order : Option Int
  visible : Option Bool
  conditional : Option ConditionalClause

/-- A `PropertyDefinition` with every optional field absent; schema
entries are spelled as updates of this blank, mirroring the TypeScript
object literals in which omitted fields are `undefined`. -/
def blankProp : PropertyDefinition :=
  { id := ""
    name := ""
    ptype := PropertyType.text
    label := ""
    defaultValue := none
    validation := []
    group := none
    order := none
    visible := none
    conditional := none }

/-- `BusinessRule`. -/
structure BusinessRule where
  id : String
  name : String
  description : String
  condition : String
  action : String
  target : Option String
  value : Option JSValue
  message : Option String

/-- `ElementPropertySchema`. -/
structure ElementPropertySchema where
  elementType : String
  displayName : String
  icon : String
  description : String
  properties : List PropertyDefinition
  businessRules : Option (List BusinessRule)

/-- `PropertyValidationError`. -/
structure PropertyValidationError where
  propertyId : String
  message : String
  rule : String
deriving DecidableEq

/-- `PropertyValidationWarning`. -/
structure PropertyValidationWarning where
  propertyId : String
  message : String
  suggestion : Option String
deriving DecidableEq

/-- `PropertyValidationResult`. -/
structure PropertyValidationResult where
  isValid : Bool
  errors : List PropertyValidationError
  warnings : List PropertyValidationWarning
deriving DecidableEq

/-- `BusinessRuleExecutionResult`. -/
structure BusinessRuleExecutionResult where
  ruleId : String
  passed : Bool
  action : String
  target : Option String
  value : Option JSValue
  message : Option String

/-- `ValidationContext`. -/
structure ValidationContext where
  elementId : String
  elementType : String
  elementData : Obj
  allElementsData : Option (List Obj)
  processData : Option Obj

/-- Host functionality outside the embeddable fragment.  `regexTest p s`
stands for `new RegExp(p).test(s)`, `urlOk u` for `new URL(u)`
succeeding, `parseNumber s` for `parseFloat(s)` (`none` = `NaN`),
`jsonParse s` for `JSON.parse(s)` (`none` = throw), and
`customRun id v` runs the defunctionalised custom validator (`.error`
models the validator throwing). -/
structure JsPlatform where
  regexTest : String → String → Bool
  urlOk : String → Bool
  parseNumber : String → Option Int
  jsonParse : String → Option JSValue
  customRun : String → JSValue → Except Unit Bool

/-- A concrete platform stub used by witnesses (no embedded operation
exercised by a witness consults it on the witness inputs). -/
def stubPlatform : JsPlatform :=
  { regexTest := fun _ _ => false
    urlOk := fun _ => false
    parseNumber := fun _ => none
    jsonParse := fun _ => none
    customRun := fun _ _ => Except.error () }

/-! ## Business-rule condition evaluation
(`ValidationService.evaluateExpression`)

The TypeScript builds the evaluation in three steps, all inside one
`try/catch` that converts any throw into `false`:
1. for each key of the context object, replace word-boundary
   occurrences (`new RegExp('\\b' + key + '\\b', 'g')`) of the key in
   the expression text by `context.<key>`;
2. compile the resulting text with `new Function('context', ...)`
   (a syntax error throws here);
3. call it with the context object and coerce with `Boolean(...)`.
The embedding mirrors the three steps: textual substitution, a
tokenizer/recursive-descent reading of the processed text, and an
interpreter in which the only bound name is `context` (any other bare
identifier is a `ReferenceError`, i.e. `Except.error`). -/

/-- JS `\w` word character (`[A-Za-z0-9_]`), the class underlying
`\b`. -/
def isWordChar (c : Char) : Bool :=
  (c ≥ 'a' && c ≤ 'z') || (c ≥ 'A' && c ≤ 'Z') || (c ≥ '0' && c ≤ '9') || c = '_'

/-- Does `key` occur at the head of `cs` with a word boundary after it? -/
def matchesKeyAt (key : List Char) (cs : List Char) : Bool :=
  match key, cs with
  | [], [] => true
  | [], c :: _ => !isWordChar c
  | _ :: _, [] => false
  | k :: ks, c :: rest => k == c && matchesKeyAt ks rest

/-- One global word-boundary replacement pass
(`expression.replace(new RegExp('\\b' + key + '\\b', 'g'), repl)`).
`prevIsWord` tracks whether the previous character was a word
character (so `\b` holds exactly when it was not); `fuel` bounds the
recursion (each step consumes at least one character). -/
def replaceWordGo (key repl : List Char) : Nat → Bool → List Char → List Char
  | 0, _, cs => cs
  | _ + 1, _, [] => []
  | fuel + 1, prevIsWord, c :: rest =>
    if !prevIsWord && key ≠ [] && matchesKeyAt key (c :: rest) then
      repl ++ replaceWordGo key repl fuel true (List.drop key.length (c :: rest))
    else
      c :: replaceWordGo key repl fuel (isWordChar c) rest

/-- `s.replace(new RegExp('\\b' + key + '\\b', 'g'), repl)` for a key
made of word characters (every context key in the repository is). -/
def replaceWord (s key repl : String) : String :=
  String.mk (replaceWordGo key.toList repl.toList (s.toList.length + 1) false s.toList)

/-- Token stream of the processed expression text. -/
inductive JSToken where
  | tIdent (name : String)
  | tStr (s : String)
  | tBang
  | tAndAnd
  | tOrOr
  | tEqEqEq
  | tLParen
  | tRParen
  | tDot
deriving DecidableEq

/-- Read an identifier continuation. -/
def lexIdent (acc : List Char) : List Char → List Char × List Char
  | [] => (acc.reverse, [])
  | c :: rest =>
    if isWordChar c then lexIdent (c :: acc) rest else (acc.reverse, c :: rest)

/-- Read a string literal body up to the closing quote (the embedded
conditions contain no escape sequences; a backslash is taken
literally, which is what JS does for the characters appearing here). -/
def lexStr (quote : Char) (acc : List Char) : List Char → Option (List Char × List Char)
  | [] => none
  | c :: rest =>
    if c == quote then some (acc.reverse, rest) else lexStr quote (c :: acc) rest

/-- Tokenizer; `none` models a `SyntaxError` thrown by `new Function`. -/
def lexTokens : Nat → List Char → Option (List JSToken)
  | 0, _ => none
  | _ + 1, [] => some []
  | fuel + 1, c :: rest =>
    if c == ' ' || c == '\t' || c == '\n' || c == '\r' then
      lexTokens fuel rest
    else if c == '(' then
      (lexTokens fuel rest).map (JSToken.tLParen :: ·)
    else if c == ')' then
      (lexTokens fuel rest).map (JSToken.tRParen :: ·)
    else if c == '.' then
      (lexTokens fuel rest).map (JSToken.tDot :: ·)
    else if c == '!' then
      -- `!==` is not used by any embedded condition; `!` here is negation.
      (lexTokens fuel rest).map (JSToken.tBang :: ·)
    else if c == '&' then
      match rest with
      | '&' :: rest' => (lexTokens fuel rest').map (JSToken.tAndAnd :: ·)
      | _ => none
    else if c == '|' then
      match rest with
      | '|' :: rest' => (lexTokens fuel rest').map (JSToken.tOrOr :: ·)
      | _ => none
    else if c == '=' then
      match rest with
      | '=' :: '=' :: rest' => (lexTokens fuel rest').map (JSToken.tEqEqEq :: ·)
      | _ => none
    else if c == '\'' || c == '"' then
      match lexStr c [] rest with
      | some (body, rest') => (lexTokens fuel rest').map (JSToken.tStr (String.mk body) :: ·)
      | none => none
    else if isWordChar c then
      match lexIdent [c] rest with
      | (ident, rest') => (lexTokens fuel rest').map (JSToken.tIdent (String.mk ident) :: ·)
    else
      none

/-- Expression tree of the embedded JS fragment. -/
inductive JSExpr where
  | lit (v : JSValue)
  | ident (name : String)
  | member (e : JSExpr) (field : String)
  | bang (e : JSExpr)
  | andE (a b : JSExpr)
  | orE (a b : JSExpr)
  | eqE (a b : JSExpr)

mutual

/-- `orExpr := andExpr ('||' andExpr)*` -/
def exprOr (fuel : Nat) (ts : List JSToken) : Option (JSExpr × List JSToken) :=
  match fuel with
  | 0 => none
  | fuel + 1 =>
    match exprAnd fuel ts with
    | none => none
    | some (a, ts') => exprOrRest fuel a ts'

def exprOrRest (fuel : Nat) (a : JSExpr) (ts : List JSToken) : Option (JSExpr × List JSToken) :=
  match fuel with
  | 0 => none
  | fuel + 1 =>
    match ts with
    | JSToken.tOrOr :: ts' =>
      match exprAnd fuel ts' with
      | none => none
      | some (b, ts'') => exprOrRest fuel (JSExpr.orE a b) ts''
    | _ => some (a, ts)

/-- `andExpr := eqExpr ('&&' eqExpr)*` -/
def exprAnd (fuel : Nat) (ts : List JSToken) : Option (JSExpr × List JSToken) :=
  match fuel with
  | 0 => none
  | fuel + 1 =>
    match exprEq fuel ts with
    | none => none
    | some (a, ts') => exprAndRest fuel a ts'

def exprAndRest (fuel : Nat) (a : JSExpr) (ts : List JSToken) : Option (JSExpr × List JSToken) :=
  match fuel with
  | 0 => none
  | fuel + 1 =>
    match ts with
    | JSToken.tAndAnd :: ts' =>
      match exprEq fuel ts' with
      | none => none
      | some (b, ts'') => exprAndRest fuel (JSExpr.andE a b) ts''
    | _ => some (a, ts)

/-- `eqExpr := unary ('===' unary)*` -/
def exprEq (fuel : Nat) (ts : List JSToken) : Option (JSExpr × List JSToken) :=
  match fuel with
  | 0 => none
  | fuel + 1 =>
    match exprUnary fuel ts with
    | none => none
    | some (a, ts') => exprEqRest fuel a ts'

def exprEqRest (fuel : Nat) (a : JSExpr) (ts : List JSToken) : Option (JSExpr × List JSToken) :=
  match fuel with
  | 0 => none
  | fuel + 1 =>
    match ts with
    | JSToken.tEqEqEq :: ts' =>
      match exprUnary fuel ts' with
      | none => none
      | some (b, ts'') => exprEqRest fuel (JSExpr.eqE a b) ts''
    | _ => some (a, ts)

/-- `unary := '!' unary | primary` -/
def exprUnary (fuel : Nat) (ts : List JSToken) : Option (JSExpr × List JSToken) :=
  match fuel with
  | 0 => none
  | fuel + 1 =>
    match ts with
    | JSToken.tBang :: ts' =>
      match exprUnary fuel ts' with
      | none => none
      | some (e, ts'') => some (JSExpr.bang e, ts'')
    | _ => exprPrimary fuel ts

/-- `primary := '(' orExpr ')' | string | ident ('.' ident)*` -/
def exprPrimary (fuel : Nat) (ts : List JSToken) : Option (JSExpr × List JSToken) :=
  match fuel with
  | 0 => none
  | fuel + 1 =>
    match ts with
    | JSToken.tLParen :: ts' =>
      match exprOr fuel ts' with
      | none => none
      | some (e, ts'') =>
        match ts'' with
        | JSToken.tRParen :: ts''' => some (e, ts''')
        | _ => none
    | JSToken.tStr s :: ts' => some (JSExpr.lit (JSValue.str s), ts')
    | JSToken.tIdent n :: ts' => exprMembers fuel (JSExpr.ident n) ts'
    | _ => none

def exprMembers (fuel : Nat) (e : JSExpr) (ts : List JSToken) : Option (JSExpr × List JSToken) :=
  match fuel with
  | 0 => none
  | fuel + 1 =>
    match ts with
    | JSToken.tDot :: JSToken.tIdent f :: ts' => exprMembers fuel (JSExpr.member e f) ts'
    | _ => some (e, ts)

end

/-- Read the full processed expression (tokenize + recognize); `none`
models the `SyntaxError` thrown by `new Function`. -/
def readExpression (s : String) : Option JSExpr :=
  match lexTokens (s.toList.length + 1) s.toList with
  | none => none
  | some ts =>
    match exprOr (ts.length + 1) ts with
    | none => none
    | some (e, []) => some e
    | some (_, _ :: _) => none

/-- `a === b` on the values the conditions compare (primitives);
see `beqVal`. -/
def strictEqVal (a b : JSValue) : Bool :=
  beqVal a b

/-- Property access `v.f`: a `TypeError` throw on `null`/`undefined`,
field lookup on an object, `undefined` on other primitives. -/
def jsMember (v : JSValue) (f : String) : Except Unit JSValue :=
  match v with
  | JSValue.null => Except.error ()
  | JSValue.undefined => Except.error ()
  | JSValue.obj fs => Except.ok (objGet fs f)
  | _ => Except.ok JSValue.undefined

/-- Interpreter for the embedded fragment.  The only bound name is the
function parameter `context` (bound to the safe context object); any
other bare identifier is an unbound global, i.e. a `ReferenceError`.
`&&`/`||` return an operand (JS semantics), `!` and `===` return
booleans. -/
def evalJS (ctx : Obj) : JSExpr → Except Unit JSValue
  | JSExpr.lit v => Except.ok v
  | JSExpr.ident n =>
    if n = "context" then Except.ok (JSValue.obj ctx) else Except.error ()
  | JSExpr.member e f =>
    match evalJS ctx e with
    | Except.error u => Except.error u
    | Except.ok v => jsMember v f
  | JSExpr.bang e =>
    match evalJS ctx e with
    | Except.error u => Except.error u
    | Except.ok v => Except.ok (JSValue.bool (!truthy v))
  | JSExpr.andE a b =>
    match evalJS ctx a with
    | Except.error u => Except.error u
    | Except.ok va => if truthy va then evalJS ctx b else Except.ok va
  | JSExpr.orE a b =>
    match evalJS ctx a with
    | Except.error u => Except.error u
    | Except.ok va => if truthy va then Except.ok va else evalJS ctx b
  | JSExpr.eqE a b =>
    match evalJS ctx a with
    | Except.error u => Except.error u
    | Except.ok va =>
      match evalJS ctx b with
      | Except.error u => Except.error u
      | Except.ok vb => Except.ok (JSValue.bool (strictEqVal va vb))

/-- Steps 1–3 of `evaluateExpression` before the surrounding `catch`:
substitute every context key, compile, run, coerce with `Boolean`.
`Except.error` collects every throw site (syntax error, reference
error, member access on `undefined`). -/
def evaluateExpressionImpl (expression : String) (ctx : Obj) : Except Unit Bool :=
  let processed :=
    (objKeys ctx).foldl (fun s key => replaceWord s key ("context." ++ key)) expression
  match readExpression processed with
  | none => Except.error ()
  | some ast =>
    match evalJS ctx ast with
    | Except.error u => Except.error u
    | Except.ok v => Except.ok (truthy v)

/-- `ValidationService.evaluateExpression`: the `catch` turns any
throw into `false`. -/
def evaluateExpression (expression : String) (ctx : Obj) : Bool :=
  match evaluateExpressionImpl expression ctx with
  | Except.ok b => b
  | Except.error _ => false

/-! ## Validation engine (`ValidationService`) -/

/-- `rule.message || defaultText` (an empty message string is falsy and
also falls back, as in JS). -/
def messageOr (m : Option String) (defaultText : String) : String :=
  match m with
  | some s => if s = "" then defaultText else s
  | none => defaultText

/-- `ValidationService.isEmpty`. -/
def isEmpty (value : JSValue) : Bool :=
  isNull value || isUndefined value || isEmptyString value ||
  (isArray value && arrayLength value == 0) ||
  (jsTypeof value == "object" && objectKeysCount value == 0)

/-- `ValidationService.isValidEmail`: the regex
`^[^\s@]+@[^\s@]+\.[^\s@]+$` — exactly one `@`; a non-empty local part
and a non-empty domain part, neither containing whitespace; the domain
part containing a `.` that is neither its first nor its last
character. -/
def isValidEmail (email : String) : Bool :=
  match email.splitOn "@" with
  | [local_, domain] =>
    local_ ≠ "" && !local_.any Char.isWhitespace &&
    domain ≠ "" && !domain.any Char.isWhitespace &&
    (List.range domain.length).any (fun i =>
      0 < i && i + 1 < domain.length && domain.toList.getD i ' ' == '.')
  | _ => false

/-- `ValidationService.validateRule`: returns the error text, or `null`
(`none`) when the rule does not trigger.  The `typeof` guards of the
TypeScript `switch` become matches on the value's constructor; the
string-truthiness guards (`value &&`) become emptiness tests.  The
TypeScript signature also receives `elementData` and `context`, which
reach only the extra arguments of the `custom` validator call (the
`ValidationRule` interface types the validator over the value alone);
they travel with the defunctionalised validator in `JsPlatform` and are
dropped here. -/
def validateRule (platform : JsPlatform) (rule : VRule) (value : JSValue)
    (property : PropertyDefinition) : Option String :=
  match rule with
  | VRule.required m =>
    if isEmpty value then some (messageOr m (property.label ++ " is required")) else none
  | VRule.minLength n m =>
    match value with
    | JSValue.str s =>
      if (s.length : Int) < n then
        some (messageOr m (property.label ++ " must be at least " ++ toString n ++ " characters"))
      else none
    | _ => none
  | VRule.maxLength n m =>
    match value with
    | JSValue.str s =>
      if (s.length : Int) > n then
        some (messageOr m (property.label ++ " must not exceed " ++ toString n ++ " characters"))
      else none
    | _ => none
  | VRule.minRule n m =>
    match value with
    | JSValue.num v =>
      if v < n then
        some (messageOr m (property.label ++ " must be at least " ++ toString n))
      else none
    | _ => none
  | VRule.maxRule n m =>
    match value with
    | JSValue.num v =>
      if v > n then
        some (messageOr m (property.label ++ " must not exceed " ++ toString n))
      else none
    | _ => none
  | VRule.patternRule p m =>
    match value with
    | JSValue.str s =>
      if s ≠ "" && !platform.regexTest p s then
        some (messageOr m (property.label ++ " format is invalid"))
      else none
    | _ => none
  | VRule.email m =>
    match value with
    | JSValue.str s =>
      if s ≠ "" && !isValidEmail s then
        some (messageOr m (property.label ++ " must be a valid email address"))
      else none
    | _ => none
  | VRule.url m =>
    match value with
    | JSValue.str s =>
      if s ≠ "" && !platform.urlOk s then
        some (messageOr m (property.label ++ " must be a valid URL"))
      else none
    | _ => none
  | VRule.custom validatorId m =>
    match validatorId with
    | none => none
    | some vid =>
      match platform.customRun vid value with
      | Except.ok true => none
      | Except.ok false => some (messageOr m (property.label ++ " validation failed"))
      | Except.error _ => some (property.label ++ " validation error")

/-- `ValidationService.performCrossPropertyValidation`. -/
def performCrossPropertyValidation (property : PropertyDefinition) (value : JSValue)
    (elementData : Obj) (context : ValidationContext) :
    List PropertyValidationError × List PropertyValidationWarning :=
  let userTaskWarnings :=
    if context.elementType = "bpmn:UserTask" then
      if property.id = "assignee" && !truthy value &&
          !truthy (objGet elementData "candidateUsers") &&
          !truthy (objGet elementData "candidateGroups") then
        [{ propertyId := property.id
           message := "User task should have assignee, candidate users, or candidate groups"
           suggestion := some "Consider adding an assignee or candidate groups" }]
      else []
    else []
  let serviceTaskErrors :=
    if context.elementType = "bpmn:ServiceTask" then
      if property.id = "javaClass" &&
          strictEqVal (objGet elementData "implementation") (JSValue.str "java") &&
          !truthy value then
        [{ propertyId := property.id
           message := "Java class is required when implementation type is \"Java Class\""
           rule := "cross-property" }]
      else []
    else []
  (serviceTaskErrors, userTaskWarnings)

/-- `ValidationService.validateProperty`: run every basic rule, then
the cross-property checks, and accumulate. -/
def validateProperty (platform : JsPlatform) (property : PropertyDefinition)
    (value : JSValue) (elementData : Obj) (context : ValidationContext) :
    PropertyValidationResult :=
  let basicErrors := property.validation.filterMap (fun rule =>
    (validateRule platform rule value property).map (fun msg =>
      { propertyId := property.id, message := msg, rule := rule.tag }))
  let cross := performCrossPropertyValidation property value elementData context
  let errors := basicErrors ++ cross.1
  { isValid := errors.length == 0
    errors := errors
    warnings := cross.2 }

/-- The evaluation context `executeBusinessRule` builds: the element's
property values spread first, then `elementId`, `elementType`,
`allElements` (`context.allElementsData || []`) and `process`
(`context.processData || {}`). -/
def mkEvalContext (elementData : Obj) (context : ValidationContext) : Obj :=
  objSet
    (objSet
      (objSet
        (objSet elementData "elementId" (JSValue.str context.elementId))
        "elementType" (JSValue.str context.elementType))
      "allElements" (JSValue.arr ((context.allElementsData.getD []).map JSValue.obj)))
    "process" (JSValue.obj (context.processData.getD []))

/-- `ValidationService.executeBusinessRule`.  The rule passes iff the
condition is false.  The surrounding TypeScript `try/catch` guards only
code that cannot throw — every throw site sits inside
`evaluateExpression`'s own `catch` — so the embedding is the `try`
branch. -/
def executeBusinessRule (rule : BusinessRule) (elementData : Obj)
    (context : ValidationContext) : BusinessRuleExecutionResult :=
  let conditionResult := evaluateExpression rule.condition (mkEvalContext elementData context)
  { ruleId := rule.id
    passed := !conditionResult
    action := rule.action
    target := rule.target
    value := rule.value
    message := rule.message }

/-- `ValidationService.performElementValidation`: accumulate every
property's errors/warnings in schema order, then convert the failed
`validate`-action business rules into errors. -/
def performElementValidation (platform : JsPlatform) (schema : ElementPropertySchema)
    (elementData : Obj) (context : ValidationContext) : PropertyValidationResult :=
  let propertyErrors := (schema.properties.map (fun property =>
    (validateProperty platform property (objGet elementData property.name)
      elementData context).errors)).flatten
  let propertyWarnings := (schema.properties.map (fun property =>
    (validateProperty platform property (objGet elementData property.name)
      elementData context).warnings)).flatten
  let ruleErrors :=
    match schema.businessRules with
    | none => []
    | some rules =>
      ((rules.map (fun rule => executeBusinessRule rule elementData context)).filter
        (fun result => !result.passed && result.action == "validate")).map
        (fun result =>
          { propertyId := messageOr result.target "general"
            message := messageOr result.message "Business rule validation failed"
            rule := result.ruleId })
  let allErrors := propertyErrors ++ ruleErrors
  { isValid := allErrors.length == 0
    errors := allErrors
    warnings := propertyWarnings }

/-! ## Property store (`CustomPropertiesService`) -/

/-- A persisted custom property inside the BPMN extension block
(`{name, value}`; `value` may be absent). -/
structure ExtensionProperty where
  name : String
  value : Option String

/-- One entry of `extensionElements.values` (`$type` plus the property
list; an absent list behaves as empty under `?.find`). -/
structure ExtensionValue where
  xtype : String
  properties : List ExtensionProperty

/-- `businessObject.extensionElements`. -/
structure ExtensionElements where
  values : List ExtensionValue

/-- The diagram element's `businessObject`: its native fields (`id`,
`name`, and anything a schema property may read generically) plus the
extension block. -/
structure BusinessObject where
  fields : Obj
  extensionElements : Option ExtensionElements

/-- The diagram element handed over by the modeler. -/
structure BpmnElement where
  etype : Option String
  dollarType : Option String
  businessObject : Option BusinessObject

/-- `element.type || element.$type` (an empty string is falsy). -/
def elementTypeOf (element : BpmnElement) : Option String :=
  match element.etype with
  | some s => if s = "" then element.dollarType else some s
  | none => element.dollarType

/-- `element.businessObject?.[name]` (`undefined` without a business
object). -/
def bizGet (element : BpmnElement) (name : String) : JSValue :=
  match element.businessObject with
  | none => JSValue.undefined
  | some bo => objGet bo.fields name

/-- `EnhancedElementProperties` (the mutable per-element record).
`lastModified` is a timestamp supplied by the caller (`new Date()`). -/
structure EnhancedElementProperties where
  elementId : String
  elementType : String
  properties : Obj
  schema : Option ElementPropertySchema
  validationResult : Option PropertyValidationResult
  lastModified : Nat
  isReadonly : Bool

/-- The service's `Map<string, EnhancedElementProperties>` in insertion
order. -/
abbrev PropsStore := List (String × EnhancedElementProperties)

/-- `map.get(elementId)`. -/
def storeGet (store : PropsStore) (elementId : String) : Option EnhancedElementProperties :=
  (store.find? (fun kv => kv.1 == elementId)).map (·.2)

/-- `map.set(elementId, record)`: replace in place, else append. -/
def storeSet (store : PropsStore) (elementId : String)
    (record : EnhancedElementProperties) : PropsStore :=
  match store with
  | [] => [(elementId, record)]
  | (k, r) :: rest =>
    if k == elementId then (k, record) :: rest
    else (k, r) :: storeSet rest elementId record

/-- `Array.from(map.values()).map(ep => ep.properties)` — the
`allElementsData` the service builds for a validation context. -/
def storeAllElementsData (store : PropsStore) : List Obj :=
  store.map (fun kv => kv.2.properties)

/-- `CustomPropertiesService.getDefaultValueForType` (and the identical
`getDefaultValueForPropertyType`). -/
def getDefaultValueForType (ptype : PropertyType) : JSValue :=
  match ptype with
  | PropertyType.boolean => JSValue.bool false
  | PropertyType.number => JSValue.num 0
  | PropertyType.multiSelect => JSValue.arr []
  | PropertyType.json => JSValue.obj []
  | _ => JSValue.str ""

/-- `CustomPropertiesService.getCustomPropertyFromBpmn`: find the
`custom:Properties` extension, find the named property, and return
`property?.value || null` (so an absent or empty persisted value reads
as `null`). -/
def getCustomPropertyFromBpmn (element : BpmnElement) (propertyName : String) :
    Option String :=
  match element.businessObject with
  | none => none
  | some bo =>
    match bo.extensionElements with
    | none => none
    | some ext =>
      match ext.values.find? (fun e => e.xtype == "custom:Properties") with
      | none => none
      | some customProperties =>
        match customProperties.properties.find? (fun p => p.name == propertyName) with
        | none => none
        | some property =>
          match property.value with
          | none => none
          | some v => if v = "" then none else some v

/-- `CustomPropertiesService.parseCustomPropertyValue`. -/
def parseCustomPropertyValue (platform : JsPlatform) (value : String)
    (propertyType : PropertyType) : JSValue :=
  if value = "" then getDefaultValueForType propertyType
  else
    match propertyType with
    | PropertyType.boolean => JSValue.bool (value == "true")
    | PropertyType.number =>
      match platform.parseNumber value with
      | some n => JSValue.num n
      | none => JSValue.num 0
    | PropertyType.multiSelect =>
      JSValue.arr (((value.splitOn ",").map (fun v => v.trim)).filter (fun v => v ≠ "")
        |>.map JSValue.str)
    | PropertyType.json =>
      match platform.jsonParse value with
      | some v => v
      | none => JSValue.obj []
    | _ => JSValue.str value

/-- The body of the per-definition loop in
`CustomPropertiesService.initializeElementProperties`: the value the
loop assigns to `properties[propDef.name]`. -/
def initialPropertyValue (platform : JsPlatform) (existingProperties : Obj)
    (element : BpmnElement) (propDef : PropertyDefinition) : JSValue :=
  if !isUndefined (objGet existingProperties propDef.name) then
    objGet existingProperties propDef.name
  else
    match getCustomPropertyFromBpmn element propDef.name with
    | some customValue => parseCustomPropertyValue platform customValue propDef.ptype
    | none =>
      if !isUndefined (bizGet element propDef.name) then bizGet element propDef.name
      else
        match propDef.defaultValue with
        | some d => d
        | none => getDefaultValueForType propDef.ptype

/-- The validation context `validateElementProperties` builds for a
record against a given store snapshot. -/
def recordValidationContext (record : EnhancedElementProperties) (store : PropsStore) :
    ValidationContext :=
  { elementId := record.elementId
    elementType := record.elementType
    elementData := record.properties
    allElementsData := some (storeAllElementsData store)
    processData := none }

/-- `CustomPropertiesService.validateElementProperties`: without a
schema the record is left untouched; otherwise the validation result is
recomputed (the `Observable` in `validateElement` runs synchronously on
subscription). -/
def validateElementProperties (platform : JsPlatform)
    (record : EnhancedElementProperties) (store : PropsStore) :
    EnhancedElementProperties :=
  match record.schema with
  | none => record
  | some schema =>
    { record with
        validationResult :=
          some (performElementValidation platform schema record.properties
            (recordValidationContext record store)) }

/-- The schema registry is declared further down (its entries reuse the
property-store types); `getElementSchemaIn` is
`ElementSchemas.find(schema => schema.elementType === elementType)`
abstracted over the registry list so the store operations can be
defined first. -/
def getElementSchemaIn (registry : List ElementPropertySchema) (elementType : String) :
    Option ElementPropertySchema :=
  registry.find? (fun schema => schema.elementType == elementType)

/-- The property map assembled by
`CustomPropertiesService.initializeElementProperties`: the
per-definition resolution loop over the schema, then a truthy
`businessObject.id` / `businessObject.name` written over the `id` /
`name` entries. -/
def initializedProperties (platform : JsPlatform) (store : PropsStore)
    (elementId : String) (element : BpmnElement) (schema : ElementPropertySchema) : Obj :=
  let existingProperties :=
    match storeGet store elementId with
    | some existingProps => existingProps.properties
    | none => []
  let propertiesLoop := schema.properties.foldl
    (fun acc propDef =>
      objSet acc propDef.name (initialPropertyValue platform existingProperties element propDef))
    []
  let propertiesWithId :=
    if truthy (bizGet element "id") then
      objSet propertiesLoop "id" (bizGet element "id")
    else propertiesLoop
  if truthy (bizGet element "name") then
    objSet propertiesWithId "name" (bizGet element "name")
  else propertiesWithId

/-- `CustomPropertiesService.initializeElementProperties` (against a
registry, a current store and a timestamp).  The assembled record is
validated against the pre-update store snapshot and then stored. -/
def initializeElementProperties (platform : JsPlatform)
    (registry : List ElementPropertySchema) (now : Nat) (store : PropsStore)
    (elementId : String) (element : BpmnElement) : PropsStore :=
  match elementTypeOf element with
  | none => store
  | some elementType =>
    match getElementSchemaIn registry elementType with
    | none => store
    | some schema =>
      let elementProperties : EnhancedElementProperties :=
        { elementId := elementId
          elementType := elementType
          properties := initializedProperties platform store elementId element schema
          schema := some schema
          validationResult := none
          lastModified := now
          isReadonly := false }
      let validated := validateElementProperties platform elementProperties store
      storeSet store elementId validated

/-- `CustomPropertiesService.setProperty`.  With no live record it
logs and returns the store unchanged (`false` = no publication);
otherwise it writes the one key, stamps `lastModified`, re-validates
(the record already sits updated in the map when the validation
context collects `allElementsData`, matching the in-place mutation of
the TypeScript), and publishes (`true`). -/
def setProperty (platform : JsPlatform) (now : Nat) (store : PropsStore)
    (elementId propertyName : String) (value : JSValue) : PropsStore × Bool :=
  match storeGet store elementId with
  | none => (store, false)
  | some elementProps =>
    let updated := { elementProps with
      properties := objSet elementProps.properties propertyName value
      lastModified := now }
    let storeUpdated := storeSet store elementId updated
    let validated := validateElementProperties platform updated storeUpdated
    (storeSet storeUpdated elementId validated, true)

/-! ## Property group projector
(`CustomPropertiesService.getPropertyGroups`,
`PropertiesPanelComponent.isPropertyVisible`) -/

/-- `PropertyGroup` (projector output). -/
structure PropertyGroup where
  id : String
  label : String
  icon : String
  order : Int
  properties : List PropertyDefinition
  isExpanded : Bool

/-- The `PropertyGroups` metadata registry
(`bpmn-elements.model.ts`): label, order, icon. -/
def propertyGroupsInfo (groupId : String) : Option (String × Int × String) :=
  match groupId with
  | "general" => some ("General", 1, "📋")
  | "execution" => some ("Execution", 2, "⚙️")
  | "classification" => some ("Classification", 3, "🏷️")
  | "status" => some ("Status", 4, "📊")
  | "technical" => some ("Technical", 5, "🔧")
  | "business" => some ("Business", 6, "💼")
  | "integration" => some ("Integration", 7, "🔗")
  | "advanced" => some ("Advanced", 8, "⚡")
  | _ => none

/-- `groupId.charAt(0).toUpperCase() + groupId.slice(1)`. -/
def titleCase (groupId : String) : String :=
  match groupId.toList with
  | [] => ""
  | c :: rest => String.mk (c.toUpper :: rest)

/-- `prop.group || 'general'` (an empty group id is falsy). -/
def groupIdOf (prop : PropertyDefinition) : String :=
  match prop.group with
  | some g => if g = "" then "general" else g
  | none => "general"

/-- Append `prop` to its group's bucket, keeping the `Map`'s insertion
order of group ids (`groupedProps.get(groupId)!.push(prop)`). -/
def pushGrouped (acc : List (String × List PropertyDefinition)) (groupId : String)
    (prop : PropertyDefinition) : List (String × List PropertyDefinition) :=
  match acc with
  | [] => [(groupId, [prop])]
  | (g, ps) :: rest =>
    if g == groupId then (g, ps ++ [prop]) :: rest
    else (g, ps) :: pushGrouped rest groupId prop

/-- `CustomPropertiesService.getPropertyGroups`: bucket the schema's
properties by group id, decorate each bucket from `PropertyGroups`
(order 999, title-cased label, 📋 icon for unregistered ids), sort each
bucket's properties by `(order || 0)` and the buckets by group order
(both sorts stable, as `Array.prototype.sort` is). -/
def getPropertyGroups (store : PropsStore) (elementId : String) : List PropertyGroup :=
  match storeGet store elementId with
  | none => []
  | some elementProps =>
    match elementProps.schema with
    | none => []
    | some schema =>
      let groupedProps := schema.properties.foldl
        (fun acc prop => pushGrouped acc (groupIdOf prop) prop) []
      let groups := groupedProps.map (fun gp =>
        let groupInfo :=
          match propertyGroupsInfo gp.1 with
          | some info => info
          | none => (titleCase gp.1, 999, "📋")
        { id := gp.1
          label := groupInfo.1
          icon := groupInfo.2.2
          order := groupInfo.2.1
          properties := gp.2.mergeSort (fun a b => a.order.getD 0 ≤ b.order.getD 0)
          isExpanded := true })
      groups.mergeSort (fun a b => a.order ≤ b.order)

/-- `PropertiesPanelComponent.isPropertyVisible` for a current element
record: a conditional property is visible iff the depended-on value is
in the allowed list; otherwise visibility follows
`property.visible !== false`. -/
def isPropertyVisible (record : EnhancedElementProperties)
    (property : PropertyDefinition) : Bool :=
  match property.conditional with
  | some c => jsIncludes c.values (objGet record.properties c.dependsOn)
  | none => property.visible != some false

/-- Modelled from the spec: the Property Group Projector's output — the
"visible, grouped view handed back to the presentation layer".  The
grouping/sorting is `getPropertyGroups` and the conditional-visibility
predicate is `isPropertyVisible`, both embedded from the sources above;
the glue applying the predicate to each projected group lives in the
panel's HTML template, which is not among the repository sources here,
so it is modelled from the spec's §4.5 (each group keeps exactly its
visible properties). -/
def projectedGroups (store : PropsStore) (elementId : String) : List PropertyGroup :=
  match storeGet store elementId with
  | none => []
  | some record =>
    (getPropertyGroups store elementId).map (fun g =>
      { g with properties := g.properties.filter (isPropertyVisible record) })

/-! ## Spec-side statement of the initial-value precedence (§4.2)

`specInitialValue` transcribes the specification's words — not the
source — so the initialization theorems can compare the two: "resolves
the initial value with this precedence: (1) existing record value, if a
record already existed (2) any out-of-band custom-property value
surfaced from the diagram document's persisted extension data,
type-coerced per property kind (3) a generic value exposed by the
diagram document's native fields (4) the definition's declared default
(5) a kind-appropriate zero value (`''`, `0`, `false`, empty list,
empty object)". -/

/-- The spec's kind-appropriate zero value (step 5). -/
def specZeroValue (kind : PropertyType) : JSValue :=
  match kind with
  | PropertyType.boolean => JSValue.bool false
  | PropertyType.number => JSValue.num 0
  | PropertyType.multiSelect => JSValue.arr []
  | PropertyType.json => JSValue.obj []
  | _ => JSValue.str ""

/-- The spec's five-step precedence for one PropertyDefinition.
"Surfaced from the persisted extension data" is the extension accessor
and per-kind coercion of §6 (`getCustomPropertyFromBpmn` /
`parseCustomPropertyValue`); "a record already existed" passes the
prior record's value map, `none` when the element is new. -/
def specInitialValue (platform : JsPlatform) (existingRecord : Option Obj)
    (element : BpmnElement) (d : PropertyDefinition) : JSValue :=
  let fromDefault :=
    match d.defaultValue with
    | some v => v
    | none => specZeroValue d.ptype
  let fromNative :=
    if !isUndefined (bizGet element d.name) then bizGet element d.name else fromDefault
  let fromCustom :=
    match getCustomPropertyFromBpmn element d.name with
    | some raw => parseCustomPropertyValue platform raw d.ptype
    | none => fromNative
  match existingRecord with
  | some props =>
    if !isUndefined (objGet props d.name) then objGet props d.name else fromCustom
  | none => fromCustom

/-! ## Schema registry (`element-schemas.ts`, `CommonProperties`) -/

def commonId : PropertyDefinition :=
  { blankProp with
      id := "id"
      name := "id"
      ptype := PropertyType.text
      label := "Element ID"
      validation :=
        [VRule.required (some "Element ID is required"),
         VRule.patternRule "^[a-zA-Z][a-zA-Z0-9_-]*$"
           (some "ID must start with a letter and contain only letters, numbers, underscores, and hyphens")]
      group := some "general"
      order := some 1 }

def commonName : PropertyDefinition :=
  { blankProp with
      id := "name"
      name := "name"
      ptype := PropertyType.text
      label := "Name"
      group := some "general"
      order := some 2 }

def commonDocumentation : PropertyDefinition :=
  { blankProp with
      id := "documentation"
      name := "documentation"
      ptype := PropertyType.textarea
      label := "Documentation"
      group := some "general"
      order := some 3 }

def commonPriority : PropertyDefinition :=
  { blankProp with
      id := "priority"
      name := "priority"
      ptype := PropertyType.select
      label := "Priority"
      defaultValue := some (JSValue.str "medium")
      group := some "execution"
      order := some 10 }

def commonAssignee : PropertyDefinition :=
  { blankProp with
      id := "assignee"
      name := "assignee"
      ptype := PropertyType.text
      label := "Assignee"
      group := some "execution"
      order := some 11 }

def commonDueDate : PropertyDefinition :=
  { blankProp with
      id := "dueDate"
      name := "dueDate"
      ptype := PropertyType.datetime
      label := "Due Date"
      group := some "execution"
      order := some 12 }

def commonCategory : PropertyDefinition :=
  { blankProp with
      id := "category"
      name := "category"
      ptype := PropertyType.select
      label := "Category"
      group := some "classification"
      order := some 20 }

def commonTags : PropertyDefinition :=
  { blankProp with
      id := "tags"
      name := "tags"
      ptype := PropertyType.multiSelect
      label := "Tags"
      group := some "classification"
      order := some 21 }

def commonIsActive : PropertyDefinition :=
  { blankProp with
      id := "isActive"
      name := "isActive"
      ptype := PropertyType.boolean
      label := "Active"
      defaultValue := some (JSValue.bool true)
      group := some "status"
      order := some 30 }

def userTaskProperties : List PropertyDefinition :=
  [commonId, commonName, commonDocumentation, commonAssignee, commonDueDate, commonPriority,
   { blankProp with
       id := "formKey", name := "formKey", ptype := PropertyType.text, label := "Form Key"
       group := some "technical", order := some 40 },
   { blankProp with
       id := "candidateUsers", name := "candidateUsers", ptype := PropertyType.text
       label := "Candidate Users", group := some "execution", order := some 13 },
   { blankProp with
       id := "candidateGroups", name := "candidateGroups", ptype := PropertyType.text
       label := "Candidate Groups", group := some "execution", order := some 14 },
   { blankProp with
       id := "skipExpression", name := "skipExpression", ptype := PropertyType.text
       label := "Skip Expression", group := some "advanced", order := some 50 },
   commonCategory, commonTags, commonIsActive]

/-- The `javaClass` definition of the Service Task schema (named so the
conditional-visibility theorems can refer to it). -/
def javaClassProp : PropertyDefinition :=
  { blankProp with
      id := "javaClass", name := "javaClass", ptype := PropertyType.text
      label := "Java Class", group := some "technical", order := some 41
      conditional := some { dependsOn := "implementation", values := [JSValue.str "java"] } }

def serviceTaskProperties : List PropertyDefinition :=
  [commonId, commonName, commonDocumentation,
   { blankProp with
       id := "implementation", name := "implementation", ptype := PropertyType.select
       label := "Implementation Type", defaultValue := some (JSValue.str "java")
       group := some "technical", order := some 40 },
   javaClassProp,
   { blankProp with
       id := "expression", name := "expression", ptype := PropertyType.text
       label := "Expression", group := some "technical", order := some 42
       conditional := some { dependsOn := "implementation"
                             values := [JSValue.str "expression", JSValue.str "delegateExpression"] } },
   { blankProp with
       id := "topic", name := "topic", ptype := PropertyType.text
       label := "External Task Topic", group := some "technical", order := some 43
       conditional := some { dependsOn := "implementation", values := [JSValue.str "external"] } },
   { blankProp with
       id := "retryTimeCycle", name := "retryTimeCycle", ptype := PropertyType.text
       label := "Retry Time Cycle", group := some "advanced", order := some 51 },
   { blankProp with
       id := "timeout", name := "timeout", ptype := PropertyType.number
       label := "Timeout (seconds)", defaultValue := some (JSValue.num 300)
       validation := [VRule.minRule 1 (some "Timeout must be at least 1 second")]
       group := some "execution", order := some 15 },
   commonPriority, commonCategory, commonTags, commonIsActive]

def exclusiveGatewayProperties : List PropertyDefinition :=
  [commonId, commonName, commonDocumentation,
   { blankProp with
       id := "defaultFlow", name := "defaultFlow", ptype := PropertyType.text
       label := "Default Flow", group := some "technical", order := some 40 },
   { blankProp with
       id := "decisionCriteria", name := "decisionCriteria", ptype := PropertyType.textarea
       label := "Decision Criteria", group := some "business", order := some 60 },
   commonCategory, commonTags, commonIsActive]

def startEventProperties : List PropertyDefinition :=
  [commonId, commonName, commonDocumentation,
   { blankProp with
       id := "eventType", name := "eventType", ptype := PropertyType.select
       label := "Event Type", defaultValue := some (JSValue.str "none")
       group := some "technical", order := some 40 },
   { blankProp with
       id := "timerDefinition", name := "timerDefinition", ptype := PropertyType.text
       label := "Timer Definition", group := some "technical", order := some 41
       conditional := some { dependsOn := "eventType", values := [JSValue.str "timer"] } },
   { blankProp with
       id := "messageRef", name := "messageRef", ptype := PropertyType.text
       label := "Message Reference", group := some "technical", order := some 42
       conditional := some { dependsOn := "eventType", values := [JSValue.str "message"] } },
   { blankProp with
       id := "initiator", name := "initiator", ptype := PropertyType.text
       label := "Initiator", group := some "execution", order := some 13 },
   commonCategory, commonTags, commonIsActive]

def userTaskBusinessRules : List BusinessRule :=
  [{ id := "assigneeRequired"
     name := "Assignee Required"
     description := "User tasks must have at least assignee, candidate users, or candidate groups"
     condition := "!assignee && !candidateUsers && !candidateGroups"
     action := "validate"
     target := none
     value := none
     message := some "User task must have an assignee, candidate users, or candidate groups defined" },
   { id := "formKeyFormat"
     name := "Form Key Format"
     description := "Form key should follow naming convention"
     condition := "formKey && !/^[a-zA-Z][a-zA-Z0-9_-]*$/.test(formKey)"
     action := "validate"
     target := none
     value := none
     message := some "Form key should start with a letter and contain only letters, numbers, underscores, and hyphens" }]

/-- The `implementationRequired` rule of the Service Task schema (named
so the business-rule theorems can refer to it). -/
def implementationRequiredRule : BusinessRule :=
  { id := "implementationRequired"
    name := "Implementation Required"
    description := "Service tasks must have implementation details"
    condition := "implementation === \"java\" && !javaClass"
    action := "validate"
    target := some "javaClass"
    value := none
    message := some "Java class is required when implementation type is \"Java Class\"" }

def serviceTaskBusinessRules : List BusinessRule :=
  [implementationRequiredRule,
   { id := "expressionRequired"
     name := "Expression Required"
     description := "Expression is required for expression-based implementations"
     condition := "(implementation === \"expression\" || implementation === \"delegateExpression\") && !expression"
     action := "validate"
     target := some "expression"
     value := none
     message := some "Expression is required for this implementation type" },
   { id := "topicRequired"
     name := "Topic Required"
     description := "Topic is required for external tasks"
     condition := "implementation === \"external\" && !topic"
     action := "validate"
     target := some "topic"
     value := none
     message := some "Topic is required for external task implementation" }]

def scriptTaskProperties : List PropertyDefinition :=
  [commonId, commonName, commonDocumentation,
   { blankProp with
       id := "scriptFormat", name := "scriptFormat", ptype := PropertyType.select
       label := "Script Language", defaultValue := some (JSValue.str "javascript")
       group := some "technical", order := some 40 },
   { blankProp with
       id := "script", name := "script", ptype := PropertyType.textarea
       label := "Script", validation := [VRule.required (some "Script is required")]
       group := some "technical", order := some 41 },
   commonPriority, commonCategory, commonTags, commonIsActive]

def parallelGatewayProperties : List PropertyDefinition :=
  [commonId, commonName, commonDocumentation, commonCategory, commonTags, commonIsActive]

def endEventProperties : List PropertyDefinition :=
  [commonId, commonName, commonDocumentation,
   { blankProp with
       id := "eventType", name := "eventType", ptype := PropertyType.select
       label := "Event Type", defaultValue := some (JSValue.str "none")
       group := some "technical", order := some 40 },
   commonCategory, commonTags, commonIsActive]

def sequenceFlowProperties : List PropertyDefinition :=
  [commonId, commonName, commonDocumentation,
   { blankProp with
       id := "conditionExpression", name := "conditionExpression", ptype := PropertyType.text
       label := "Condition Expression", group := some "technical", order := some 40 },
   { blankProp with
       id := "isDefault", name := "isDefault", ptype := PropertyType.boolean
       label := "Default Flow", defaultValue := some (JSValue.bool false)
       group := some "technical", order := some 41 },
   commonPriority, commonCategory, commonTags, commonIsActive]

def userTaskSchema : ElementPropertySchema :=
  { elementType := "bpmn:UserTask"
    displayName := "User Task"
    icon := "👤"
    description := "A task that requires human interaction"
    properties := userTaskProperties
    businessRules := some userTaskBusinessRules }

def serviceTaskSchema : ElementPropertySchema :=
  { elementType := "bpmn:ServiceTask"
    displayName := "Service Task"
    icon := "⚙️"
    description := "An automated task performed by a system"
    properties := serviceTaskProperties
    businessRules := some serviceTaskBusinessRules }

def scriptTaskSchema : ElementPropertySchema :=
  { elementType := "bpmn:ScriptTask"
    displayName := "Script Task"
    icon := "📝"
    description := "A task that executes a script"
    properties := scriptTaskProperties
    businessRules := none }

def exclusiveGatewaySchema : ElementPropertySchema :=
  { elementType := "bpmn:ExclusiveGateway"
    displayName := "Exclusive Gateway"
    icon := "◇"
    description := "A gateway that creates alternative paths"
    properties := exclusiveGatewayProperties
    businessRules := none }

def parallelGatewaySchema : ElementPropertySchema :=
  { elementType := "bpmn:ParallelGateway"
    displayName := "Parallel Gateway"
    icon := "✕"
    description := "A gateway that creates parallel paths"
    properties := parallelGatewayProperties
    businessRules := none }

def startEventSchema : ElementPropertySchema :=
  { elementType := "bpmn:StartEvent"
    displayName := "Start Event"
    icon := "⭕"
    description := "The beginning of a process"
    properties := startEventProperties
    businessRules := none }

def endEventSchema : ElementPropertySchema :=
  { elementType := "bpmn:EndEvent"
    displayName := "End Event"
    icon := "⬜"
    description := "The end of a process"
    properties := endEventProperties
    businessRules := none }

def sequenceFlowSchema : ElementPropertySchema :=
  { elementType := "bpmn:SequenceFlow"
    displayName := "Sequence Flow"
    icon := "→"
    description := "Connection between BPMN elements"
    properties := sequenceFlowProperties
    businessRules := none }

/-- `ElementSchemas`. -/
def ElementSchemas : List ElementPropertySchema :=
  [userTaskSchema, serviceTaskSchema, scriptTaskSchema, exclusiveGatewaySchema,
   parallelGatewaySchema, startEventSchema, endEventSchema, sequenceFlowSchema]

/-- `getElementSchema` against the repository's registry. -/
def getElementSchema (elementType : String) : Option ElementPropertySchema :=
  getElementSchemaIn ElementSchemas elementType

/-! ## Concrete fixtures used by witnesses and counterexamples -/

/-- After an edit, the record for element `e1` holds `id = 'Edited'`. -/
def c1PriorRecord : EnhancedElementProperties :=
  { elementId := "e1"
    elementType := "bpmn:StartEvent"
    properties := [("id", JSValue.str "Edited")]
    schema := some startEventSchema
    validationResult := none
    lastModified := 0
    isReadonly := false }

def c1Store : PropsStore := [("e1", c1PriorRecord)]

/-- The re-selected diagram element: its business object still carries
the native id `Task_1` (truthy). -/
def c1Element : BpmnElement :=
  { etype := some "bpmn:StartEvent"
    dollarType := none
    businessObject := some { fields := [("id", JSValue.str "Task_1")], extensionElements := none } }

/-- The `id` entry of the record produced by re-initializing `e1`. -/
def c1StoredId : JSValue :=
  match storeGet (initializeElementProperties stubPlatform ElementSchemas 5 c1Store "e1" c1Element) "e1" with
  | some record => objGet record.properties "id"
  | none => JSValue.undefined

/-- A fresh Service-Task record whose `implementation` was switched to
`'expression'`, so `javaClass`'s conditional clause does not match. -/
def c2Record : EnhancedElementProperties :=
  { elementId := "s1"
    elementType := "bpmn:ServiceTask"
    properties := [("implementation", JSValue.str "expression"), ("javaClass", JSValue.str "")]
    schema := some serviceTaskSchema
    validationResult := none
    lastModified := 0
    isReadonly := false }

def c2Store : PropsStore := [("s1", c2Record)]

def c3Data : Obj := [("implementation", JSValue.str "java"), ("javaClass", JSValue.str "")]

def c3Ctx : ValidationContext :=
  { elementId := "e1"
    elementType := "bpmn:ServiceTask"
    elementData := c3Data
    allElementsData := none
    processData := none }

def c4Ctx : ValidationContext :=
  { elementId := "e4"
    elementType := "bpmn:Task"
    elementData := []
    allElementsData := none
    processData := none }

/-- Property P with one `required` rule. -/
def c4PropOne : PropertyDefinition :=
  { blankProp with
      id := "p4", name := "p4", label := "P4"
      validation := [VRule.required (some "P4 required")] }

/-- The same property with a second failing rule added. -/
def c4PropTwo : PropertyDefinition :=
  { blankProp with
      id := "p4", name := "p4", label := "P4"
      validation := [VRule.required (some "P4 required"), VRule.minLength 3 (some "P4 too short")] }

/-- A rule whose condition text is not a well-formed expression, so
`new Function` throws a `SyntaxError` during evaluation. -/
def c5BadRule : BusinessRule :=
  { id := "badRule"
    name := "Bad Rule"
    description := "condition throws on evaluation"
    condition := "("
    action := "validate"
    target := none
    value := none
    message := some "bad rule message" }

def c5Data : Obj := [("x", JSValue.str "1")]

def c5Ctx : ValidationContext :=
  { elementId := "e5"
    elementType := "bpmn:Task"
    elementData := c5Data
    allElementsData := none
    processData := none }

/-- A freshly selected End Event whose business object exposes a truthy
native id. -/
def c7Element : BpmnElement :=
  { etype := some "bpmn:EndEvent"
    dollarType := none
    businessObject := some { fields := [("id", JSValue.str "End_1")], extensionElements := none } }

def c8RecordA : EnhancedElementProperties :=
  { elementId := "a"
    elementType := "bpmn:Task"
    properties := [("x", JSValue.str "old"), ("y", JSValue.num 2)]
    schema := none
    validationResult := none
    lastModified := 0
    isReadonly := false }

def c8RecordB : EnhancedElementProperties :=
  { elementId := "b"
    elementType := "bpmn:Task"
    properties := [("z", JSValue.bool true)]
    schema := none
    validationResult := none
    lastModified := 0
    isReadonly := false }

def c8Store : PropsStore := [("a", c8RecordA), ("b", c8RecordB)]

/-- The record `setProperty` ends up storing in the live-record case:
the one key written and `lastModified` stamped, then re-validated
against the store that already holds the updated record (the TypeScript
mutates the record in place inside the map before validating). -/
def setPropertyUpdatedRecord (platform : JsPlatform) (now : Nat) (store : PropsStore)
    (elementId propertyName : String) (value : JSValue)
    (rec : EnhancedElementProperties) : EnhancedElementProperties :=
  let updated := { rec with
    properties := objSet rec.properties propertyName value
    lastModified := now }
  validateElementProperties platform updated (storeSet store elementId updated)

/-! ## Helper lemmas -/

theorem objGet_cons (k' : String) (v' : JSValue) (tail : Obj) (k : String) :
    objGet ((k', v') :: tail) k = if k' = k then v' else objGet tail k := by
  by_cases h : k' = k
  · subst h
    simp only [objGet]
    rw [List.find?_cons_of_pos _ (by simp)]
    simp
  · simp only [objGet, if_neg h]
    rw [List.find?_cons_of_neg _ (by simp [h])]

theorem objGet_objSet_self (o : Obj) (k : String) (v : JSValue) :
    objGet (objSet o k v) k = v := by
  induction o with
  | nil => simp [objSet, objGet_cons]
  | cons kv rest ih =>
    rcases kv with ⟨k', v'⟩
    by_cases h : k' = k
    · subst h
      simp [objSet, objGet_cons]
    · simp only [objSet, beq_iff_eq, h, if_false]
      rw [objGet_cons, if_neg h]
      exact ih

theorem objGet_objSet_ne (o : Obj) (k' k : String) (v : JSValue) (h : k' ≠ k) :
    objGet (objSet o k' v) k = objGet o k := by
  induction o with
  | nil => simp [objSet, objGet_cons, h, objGet]
  | cons kv rest ih =>
    rcases kv with ⟨k0, v0⟩
    by_cases h0 : k0 = k'
    · subst h0
      simp only [objSet, beq_self_eq_true, if_true]
      rw [objGet_cons, objGet_cons, if_neg h, if_neg h]
    · simp only [objSet, beq_iff_eq, h0, if_false]
      rw [objGet_cons, objGet_cons, ih]

theorem mem_objKeys_objSet (o : Obj) (k' k : String) (v : JSValue) :
    k ∈ objKeys (objSet o k' v) ↔ k = k' ∨ k ∈ objKeys o := by
  induction o with
  | nil => simp [objSet, objKeys]
  | cons kv rest ih =>
    rcases kv with ⟨k0, v0⟩
    by_cases h0 : k0 = k'
    · subst h0
      simp only [objSet, beq_self_eq_true, if_true, objKeys, List.map_cons, List.mem_cons]
      tauto
    · simp only [objSet, beq_iff_eq, h0, if_false, objKeys, List.map_cons, List.mem_cons] at ih ⊢
      rw [ih]
      tauto

theorem storeGet_cons (k' : String) (r' : EnhancedElementProperties)
    (rest : PropsStore) (k : String) :
    storeGet ((k', r') :: rest) k = if k' = k then some r' else storeGet rest k := by
  by_cases h : k' = k
  · subst h
    simp only [storeGet]
    rw [List.find?_cons_of_pos _ (by simp)]
    simp
  · simp only [storeGet, if_neg h]
    rw [List.find?_cons_of_neg _ (by simp [h])]

theorem storeGet_storeSet_self (s : PropsStore) (k : String) (r : EnhancedElementProperties) :
    storeGet (storeSet s k r) k = some r := by
  induction s with
  | nil => simp [storeSet, storeGet_cons]
  | cons kv rest ih =>
    rcases kv with ⟨k', r'⟩
    by_cases h : k' = k
    · subst h
      simp [storeSet, storeGet_cons]
    · simp only [storeSet, beq_iff_eq, h, if_false]
      rw [storeGet_cons, if_neg h]
      exact ih

theorem storeGet_storeSet_ne (s : PropsStore) (k' k : String) (r : EnhancedElementProperties)
    (h : k' ≠ k) : storeGet (storeSet s k' r) k = storeGet s k := by
  induction s with
  | nil => simp [storeSet, storeGet_cons, h, storeGet]
  | cons kv rest ih =>
    rcases kv with ⟨k0, r0⟩
    by_cases h0 : k0 = k'
    · subst h0
      simp only [storeSet, beq_self_eq_true, if_true]
      rw [storeGet_cons, storeGet_cons, if_neg h, if_neg h]
    · simp only [storeSet, beq_iff_eq, h0, if_false]
      rw [storeGet_cons, storeGet_cons, ih]

theorem objGet_initFold_not_mem (f : PropertyDefinition → JSValue) (k : String) :
    ∀ (props : List PropertyDefinition) (init : Obj), (∀ q ∈ props, q.name ≠ k) →
      objGet (props.foldl (fun acc q => objSet acc q.name (f q)) init) k = objGet init k := by
  intro props
  induction props with
  | nil => intro init _; rfl
  | cons q rest ih =>
    intro init h
    simp only [List.foldl_cons]
    rw [ih _ (fun q' hq' => h q' (List.mem_cons_of_mem _ hq'))]
    exact objGet_objSet_ne _ _ _ _ (h q (List.mem_cons_self _ _))

theorem objGet_initFold_mem (f : PropertyDefinition → JSValue) :
    ∀ (props : List PropertyDefinition) (init : Obj) (pd : PropertyDefinition),
      pd ∈ props → (props.map (·.name)).Nodup →
      objGet (props.foldl (fun acc q => objSet acc q.name (f q)) init) pd.name = f pd := by
  intro props
  induction props with
  | nil => intro init pd hpd _; cases hpd
  | cons q rest ih =>
    intro init pd hpd hnd
    simp only [List.map_cons, List.nodup_cons] at hnd
    rcases List.mem_cons.mp hpd with h | h
    · subst h
      simp only [List.foldl_cons]
      rw [objGet_initFold_not_mem]
      · exact objGet_objSet_self _ _ _
      · intro q' hq' hqe
        exact hnd.1 (hqe ▸ List.mem_map_of_mem (·.name) hq')
    · simp only [List.foldl_cons]
      exact ih _ pd h hnd.2

theorem mem_objKeys_initFold (f : PropertyDefinition → JSValue) :
    ∀ (props : List PropertyDefinition) (init : Obj) (k : String),
      k ∈ objKeys (props.foldl (fun acc q => objSet acc q.name (f q)) init) ↔
        k ∈ props.map (·.name) ∨ k ∈ objKeys init := by
  intro props
  induction props with
  | nil => intro init k; simp
  | cons q rest ih =>
    intro init k
    simp only [List.foldl_cons, List.map_cons, List.mem_cons]
    rw [ih, mem_objKeys_objSet]
    tauto

theorem validateElementProperties_properties (platform : JsPlatform)
    (record : EnhancedElementProperties) (store : PropsStore) :
    (validateElementProperties platform record store).properties = record.properties := by
  unfold validateElementProperties
  cases h : record.schema <;> simp [h]

theorem validateElementProperties_lastModified (platform : JsPlatform)
    (record : EnhancedElementProperties) (store : PropsStore) :
    (validateElementProperties platform record store).lastModified = record.lastModified := by
  unfold validateElementProperties
  cases h : record.schema <;> simp [h]

theorem validateElementProperties_elementId (platform : JsPlatform)
    (record : EnhancedElementProperties) (store : PropsStore) :
    (validateElementProperties platform record store).elementId = record.elementId := by
  unfold validateElementProperties
  cases h : record.schema <;> simp [h]

theorem validateElementProperties_elementType (platform : JsPlatform)
    (record : EnhancedElementProperties) (store : PropsStore) :
    (validateElementProperties platform record store).elementType = record.elementType := by
  unfold validateElementProperties
  cases h : record.schema <;> simp [h]

theorem validateElementProperties_schema (platform : JsPlatform)
    (record : EnhancedElementProperties) (store : PropsStore) :
    (validateElementProperties platform record store).schema = record.schema := by
  unfold validateElementProperties
  cases h : record.schema <;> simp [h]

theorem validateElementProperties_isReadonly (platform : JsPlatform)
    (record : EnhancedElementProperties) (store : PropsStore) :
    (validateElementProperties platform record store).isReadonly = record.isReadonly := by
  unfold validateElementProperties
  cases h : record.schema <;> simp [h]

theorem validateElementProperties_result_of_schema (platform : JsPlatform)
    (record : EnhancedElementProperties) (store : PropsStore)
    (schema : ElementPropertySchema) (h : record.schema = some schema) :
    (validateElementProperties platform record store).validationResult =
      some (performElementValidation platform schema record.properties
        (recordValidationContext record store)) := by
  unfold validateElementProperties
  rw [h]

theorem getDefaultValueForType_eq_specZero (t : PropertyType) :
    getDefaultValueForType t = specZeroValue t := by
  cases t <;> rfl

theorem initFallback_eq (platform : JsPlatform) (element : BpmnElement)
    (pd : PropertyDefinition) :
    (match getCustomPropertyFromBpmn element pd.name with
     | some customValue => parseCustomPropertyValue platform customValue pd.ptype
     | none =>
       if !isUndefined (bizGet element pd.name) then bizGet element pd.name
       else
         match pd.defaultValue with
         | some d => d
         | none => getDefaultValueForType pd.ptype) =
    (match getCustomPropertyFromBpmn element pd.name with
     | some raw => parseCustomPropertyValue platform raw pd.ptype
     | none =>
       if !isUndefined (bizGet element pd.name) then bizGet element pd.name
       else
         match pd.defaultValue with
         | some v => v
         | none => specZeroValue pd.ptype) := by
  cases getCustomPropertyFromBpmn element pd.name with
  | some raw => rfl
  | none =>
    by_cases h : (!isUndefined (bizGet element pd.name)) = true
    · simp [h]
    · simp only [h, if_false, Bool.not_eq_true] at h ⊢
      simp only [h, Bool.false_eq_true, if_false]
      cases pd.defaultValue with
      | some d => rfl
      | none => exact getDefaultValueForType_eq_specZero _

theorem initialPropertyValue_eq_spec (platform : JsPlatform) (element : BpmnElement)
    (pd : PropertyDefinition) (existingRecord : Option Obj) :
    initialPropertyValue platform
      (match existingRecord with | some props => props | none => []) element pd =
      specInitialValue platform existingRecord element pd := by
  cases existingRecord with
  | none => exact initFallback_eq platform element pd
  | some props =>
    simp only [initialPropertyValue, specInitialValue]
    by_cases h : isUndefined (objGet props pd.name) = true
    · simp only [h, Bool.not_true, Bool.false_eq_true, if_false]
      exact initFallback_eq platform element pd
    · have h' : isUndefined (objGet props pd.name) = false := by
        revert h
        cases isUndefined (objGet props pd.name) <;> simp
      simp [h']

theorem registry_names_nodup :
    ∀ s ∈ ElementSchemas, (s.properties.map (·.name)).Nodup := by
  decide

theorem registry_id_name_present :
    ∀ s ∈ ElementSchemas,
      "id" ∈ s.properties.map (·.name) ∧ "name" ∈ s.properties.map (·.name) := by
  decide

theorem registry_id_eq_name :
    ∀ s ∈ ElementSchemas, ∀ pd ∈ s.properties, pd.id = pd.name := by
  decide

theorem length_filterMap_eq_countP {α β : Type} (f : α → Option β) (l : List α) :
    (l.filterMap f).length = l.countP (fun a => (f a).isSome) := by
  induction l with
  | nil => rfl
  | cons a rest ih =>
    rw [List.filterMap_cons, List.countP_cons]
    cases h : f a <;> simp [h, ih]

theorem validateProperty_errors_in_element_validation (platform : JsPlatform)
    (schema : ElementPropertySchema) (elementData : Obj) (context : ValidationContext)
    (p : PropertyDefinition) (hp : p ∈ schema.properties)
    (e : PropertyValidationError)
    (he : e ∈ (validateProperty platform p (objGet elementData p.name)
      elementData context).errors) :
    e ∈ (performElementValidation platform schema elementData context).errors := by
  simp only [performElementValidation]
  apply List.mem_append_left
  rw [List.mem_flatten]
  exact ⟨_, List.mem_map_of_mem _ hp, he⟩

theorem initializedProperties_objGet_other (platform : JsPlatform) (store : PropsStore)
    (elementId : String) (element : BpmnElement) (schema : ElementPropertySchema)
    (pd : PropertyDefinition) (hmem : pd ∈ schema.properties)
    (hnd : (schema.properties.map (·.name)).Nodup)
    (hid : pd.name ≠ "id") (hname : pd.name ≠ "name") :
    objGet (initializedProperties platform store elementId element schema) pd.name =
      initialPropertyValue platform
        (match storeGet store elementId with
         | some existingProps => existingProps.properties
         | none => []) element pd := by
  unfold initializedProperties
  by_cases hn : truthy (bizGet element "name") = true
  · rw [if_pos hn, objGet_objSet_ne _ _ _ _ (fun hcontra => hname hcontra.symm)]
    by_cases hi : truthy (bizGet element "id") = true
    · rw [if_pos hi, objGet_objSet_ne _ _ _ _ (fun hcontra => hid hcontra.symm)]
      exact objGet_initFold_mem _ _ _ _ hmem hnd
    · rw [if_neg hi]
      exact objGet_initFold_mem _ _ _ _ hmem hnd
  · rw [if_neg hn]
    by_cases hi : truthy (bizGet element "id") = true
    · rw [if_pos hi, objGet_objSet_ne _ _ _ _ (fun hcontra => hid hcontra.symm)]
      exact objGet_initFold_mem _ _ _ _ hmem hnd
    · rw [if_neg hi]
      exact objGet_initFold_mem _ _ _ _ hmem hnd

theorem initializedProperties_objGet_id (platform : JsPlatform) (store : PropsStore)
    (elementId : String) (element : BpmnElement) (schema : ElementPropertySchema)
    (hi : truthy (bizGet element "id") = true) :
    objGet (initializedProperties platform store elementId element schema) "id" =
      bizGet element "id" := by
  unfold initializedProperties
  by_cases hn : truthy (bizGet element "name") = true
  · rw [if_pos hn, objGet_objSet_ne _ _ _ _ (by decide), if_pos hi, objGet_objSet_self]
  · rw [if_neg hn, if_pos hi, objGet_objSet_self]

theorem initializedProperties_objGet_name (platform : JsPlatform) (store : PropsStore)
    (elementId : String) (element : BpmnElement) (schema : ElementPropertySchema)
    (hn : truthy (bizGet element "name") = true) :
    objGet (initializedProperties platform store elementId element schema) "name" =
      bizGet element "name" := by
  unfold initializedProperties
  rw [if_pos hn, objGet_objSet_self]

theorem mem_objKeys_initializedProperties (platform : JsPlatform) (store : PropsStore)
    (elementId : String) (element : BpmnElement) (schema : ElementPropertySchema)
    (hid : "id" ∈ schema.properties.map (·.name))
    (hname : "name" ∈ schema.properties.map (·.name)) (k : String) :
    k ∈ objKeys (initializedProperties platform store elementId element schema) ↔
      k ∈ schema.properties.map (·.name) := by
  unfold initializedProperties
  have base : k ∈ objKeys (schema.properties.foldl
      (fun acc propDef => objSet acc propDef.name
        (initialPropertyValue platform
          (match storeGet store elementId with
           | some existingProps => existingProps.properties
           | none => []) element propDef)) []) ↔
      k ∈ schema.properties.map (·.name) := by
    rw [mem_objKeys_initFold]
    simp [objKeys]
  by_cases hn : truthy (bizGet element "name") = true
  · rw [if_pos hn]
    by_cases hi : truthy (bizGet element "id") = true
    · rw [if_pos hi, mem_objKeys_objSet, mem_objKeys_objSet, base]
      constructor
      · rintro (rfl | rfl | h)
        · exact hname
        · exact hid
        · exact h
      · exact fun h => Or.inr (Or.inr h)
    · rw [if_neg hi, mem_objKeys_objSet, base]
      constructor
      · rintro (rfl | h)
        · exact hname
        · exact h
      · exact fun h => Or.inr h
  · rw [if_neg hn]
    by_cases hi : truthy (bizGet element "id") = true
    · rw [if_pos hi, mem_objKeys_objSet, base]
      constructor
      · rintro (rfl | h)
        · exact hid
        · exact h
      · exact fun h => Or.inr h
    · rw [if_neg hi]
      exact base

theorem initialize_lookup (platform : JsPlatform) (now : Nat) (store : PropsStore)
    (elementId : String) (element : BpmnElement) (t : String)
    (schema : ElementPropertySchema)
    (h1 : elementTypeOf element = some t)
    (h2 : getElementSchema t = some schema) :
    ∃ rec, storeGet (initializeElementProperties platform ElementSchemas now store
        elementId element) elementId = some rec ∧
      rec.properties = initializedProperties platform store elementId element schema ∧
      rec.schema = some schema := by
  have h2' : getElementSchemaIn ElementSchemas t = some schema := h2
  refine ⟨validateElementProperties platform
    { elementId := elementId
      elementType := t
      properties := initializedProperties platform store elementId element schema
      schema := some schema
      validationResult := none
      lastModified := now
      isReadonly := false } store, ?_, ?_, ?_⟩
  · simp only [initializeElementProperties, h1, h2']
    exact storeGet_storeSet_self _ _ _
  · rw [validateElementProperties_properties]
  · rw [validateElementProperties_schema]

/-- C10: `isEmpty` holds exactly on `null`, `undefined`, `''`, the
empty array, and an object with zero enumerable keys; consequently a
`required` rule triggers exactly on the empty values, and in particular
every number (including `0`) and every boolean (including `false`)
satisfies a `required` rule with no error. -/
theorem c10_required_empty_semantics :
    (∀ v : JSValue, isEmpty v = true ↔
      (v = JSValue.null ∨ v = JSValue.undefined ∨ v = JSValue.str "" ∨
       v = JSValue.arr [] ∨ v = JSValue.obj [])) ∧
    (∀ (platform : JsPlatform) (property : PropertyDefinition) (m : Option String)
       (v : JSValue),
      ((validateRule platform (VRule.required m) v property).isSome = true ↔
        isEmpty v = true)) ∧
    (∀ (platform : JsPlatform) (property : PropertyDefinition) (m : Option String)
       (n : Int), validateRule platform (VRule.required m) (JSValue.num n) property = none) ∧
    (∀ (platform : JsPlatform) (property : PropertyDefinition) (m : Option String)
       (b : Bool), validateRule platform (VRule.required m) (JSValue.bool b) property = none) := by
  refine ⟨?_, ?_, ?_, ?_⟩
  · intro v
    cases v with
    | null => simp [isEmpty, isNull]
    | undefined => simp [isEmpty, isNull, isUndefined]
    | bool b => simp [isEmpty, isNull, isUndefined, isEmptyString, isArray, jsTypeof]
    | num n => simp [isEmpty, isNull, isUndefined, isEmptyString, isArray, jsTypeof]
    | str s => simp [isEmpty, isNull, isUndefined, isEmptyString, isArray, jsTypeof]
    | arr xs =>
      simp [isEmpty, isNull, isUndefined, isEmptyString, isArray, arrayLength, jsTypeof,
        objectKeysCount, List.length_eq_zero]
    | obj fs =>
      simp [isEmpty, isNull, isUndefined, isEmptyString, isArray, jsTypeof,
        objectKeysCount, List.length_eq_zero]
  · intro platform property m v
    simp only [validateRule]
    by_cases h : isEmpty v = true <;> simp [h]
  · intro platform property m n
    rfl
  · intro platform property m b
    rfl

/-- C9: the `pattern`, `email` and `url` rules never produce an error
on the empty string (the `value &&` truthiness guard short-circuits
before the matcher runs), and a property whose only rule is one of the
three validates the empty string as passing (shown for an element type
without cross-property checks). -/
theorem c9_empty_string_passes :
    ∀ (platform : JsPlatform) (p : String) (m : Option String)
      (property : PropertyDefinition) (data : Obj) (eid : String),
      validateRule platform (VRule.patternRule p m) (JSValue.str "") property = none ∧
      validateRule platform (VRule.email m) (JSValue.str "") property = none ∧
      validateRule platform (VRule.url m) (JSValue.str "") property = none ∧
      (validateProperty platform
        { blankProp with id := "p9", name := "p9", label := "P9",
                         validation := [VRule.patternRule p m] }
        (JSValue.str "") data
        { elementId := eid, elementType := "bpmn:Task", elementData := data,
          allElementsData := none, processData := none }).isValid = true ∧
      (validateProperty platform
        { blankProp with id := "p9", name := "p9", label := "P9",
                         validation := [VRule.email m] }
        (JSValue.str "") data
        { elementId := eid, elementType := "bpmn:Task", elementData := data,
          allElementsData := none, processData := none }).isValid = true ∧
      (validateProperty platform
        { blankProp with id := "p9", name := "p9", label := "P9",
                         validation := [VRule.url m] }
        (JSValue.str "") data
        { elementId := eid, elementType := "bpmn:Task", elementData := data,
          allElementsData := none, processData := none }).isValid = true := by
  intro platform p m property data eid
  refine ⟨rfl, rfl, rfl, rfl, rfl, rfl⟩

/-- C6: the kind-guarded rules are silent no-ops on a value of the
wrong runtime kind — `minLength`, `maxLength` and `pattern` never
trigger on a non-string value, `min` and `max` never trigger on a
non-number value. -/
theorem c6_kind_mismatch_noop :
    ∀ (platform : JsPlatform) (property : PropertyDefinition) (value : JSValue)
      (n : Int) (p : String) (m : Option String),
      (jsTypeof value ≠ "string" →
        validateRule platform (VRule.minLength n m) value property = none ∧
        validateRule platform (VRule.maxLength n m) value property = none ∧
        validateRule platform (VRule.patternRule p m) value property = none) ∧
      (jsTypeof value ≠ "number" →
        validateRule platform (VRule.minRule n m) value property = none ∧
        validateRule platform (VRule.maxRule n m) value property = none) := by
  intro platform property value n p m
  constructor
  · intro h
    cases value with
    | str s => exact absurd rfl h
    | null => exact ⟨rfl, rfl, rfl⟩
    | undefined => exact ⟨rfl, rfl, rfl⟩
    | bool b => exact ⟨rfl, rfl, rfl⟩
    | num k => exact ⟨rfl, rfl, rfl⟩
    | arr xs => exact ⟨rfl, rfl, rfl⟩
    | obj fs => exact ⟨rfl, rfl, rfl⟩
  · intro h
    cases value with
    | num k => exact absurd rfl h
    | null => exact ⟨rfl, rfl⟩
    | undefined => exact ⟨rfl, rfl⟩
    | bool b => exact ⟨rfl, rfl⟩
    | str s => exact ⟨rfl, rfl⟩
    | arr xs => exact ⟨rfl, rfl⟩
    | obj fs => exact ⟨rfl, rfl⟩

/-- C6 witness: instantiated at a number for the string rules and at a
string for the numeric rules. -/
theorem c6_kind_mismatch_noop_witness :
    (jsTypeof (JSValue.num 5) ≠ "string" ∧
      validateRule stubPlatform (VRule.minLength 3 none) (JSValue.num 5) blankProp = none ∧
      validateRule stubPlatform (VRule.maxLength 3 none) (JSValue.num 5) blankProp = none ∧
      validateRule stubPlatform (VRule.patternRule "^a$" none) (JSValue.num 5) blankProp = none) ∧
    (jsTypeof (JSValue.str "x") ≠ "number" ∧
      validateRule stubPlatform (VRule.minRule 3 none) (JSValue.str "x") blankProp = none ∧
      validateRule stubPlatform (VRule.maxRule 3 none) (JSValue.str "x") blankProp = none) := by
  have hs : jsTypeof (JSValue.num 5) ≠ "string" := by decide
  have hn : jsTypeof (JSValue.str "x") ≠ "number" := by decide
  refine ⟨⟨hs, ?_⟩, ⟨hn, ?_⟩⟩
  · exact (c6_kind_mismatch_noop stubPlatform blankProp (JSValue.num 5) 3 "^a$" none).1 hs
  · exact (c6_kind_mismatch_noop stubPlatform blankProp (JSValue.str "x") 3 "^a$" none).2 hn

/-- C4: validation runs every rule with no short-circuit — the error
count is the number of triggered rules plus the cross-property errors —
and concretely a lone `required` rule on P with value `''` yields
exactly one error tagged `required`, while adding a second failing rule
appends a second, distinct error instead of replacing the first. -/
theorem c4_accumulates_all_rules :
    (∀ (platform : JsPlatform) (property : PropertyDefinition) (value : JSValue)
       (data : Obj) (ctx : ValidationContext),
      (validateProperty platform property value data ctx).errors.length =
        property.validation.countP
          (fun r => (validateRule platform r value property).isSome) +
        (performCrossPropertyValidation property value data ctx).1.length) ∧
    (∀ platform : JsPlatform,
      (validateProperty platform c4PropOne (JSValue.str "") [] c4Ctx).errors =
        [{ propertyId := "p4", message := "P4 required", rule := "required" }]) ∧
    (∀ platform : JsPlatform,
      (validateProperty platform c4PropTwo (JSValue.str "") [] c4Ctx).errors =
        [{ propertyId := "p4", message := "P4 required", rule := "required" },
         { propertyId := "p4", message := "P4 too short", rule := "minLength" }]) := by
  refine ⟨?_, ?_, ?_⟩
  · intro platform property value data ctx
    simp only [validateProperty, List.length_append]
    rw [length_filterMap_eq_countP]
    congr 1
    apply List.countP_congr
    intro r _
    cases h : validateRule platform r value property <;> simp [h]
  · intro platform
    rfl
  · intro platform
    rfl

/-- C5 counterexample: the rule whose condition text `"("` makes
`new Function` throw a `SyntaxError` is swallowed inside
`evaluateExpression` (which returns `false`), so `executeBusinessRule`
reports `passed = true` with the rule's own message — not the
`passed = false` diagnostic result the claim requires. -/
theorem c5_throwing_rule_passes :
    evaluateExpressionImpl "(" (mkEvalContext c5Data c5Ctx) = Except.error () ∧
    c5BadRule.condition = "(" ∧
    (executeBusinessRule c5BadRule c5Data c5Ctx).passed = true ∧
    (executeBusinessRule c5BadRule c5Data c5Ctx).message = some "bad rule message" := by
  exact ⟨rfl, rfl, rfl, rfl⟩

/-- C5 (amended): a business-rule condition that throws during
evaluation is caught inside the expression evaluator and coerced to a
`false` condition, so the engine returns a total (never-throwing)
`RuleExecutionResult` with `passed = true` carrying the rule's declared
action and message; no exception reaches the caller. -/
theorem c5_throw_swallowed_as_pass :
    ∀ (rule : BusinessRule) (elementData : Obj) (ctx : ValidationContext),
      evaluateExpressionImpl rule.condition (mkEvalContext elementData ctx) =
        Except.error () →
      executeBusinessRule rule elementData ctx =
        { ruleId := rule.id, passed := true, action := rule.action,
          target := rule.target, value := rule.value, message := rule.message } := by
  intro rule elementData ctx h
  simp [executeBusinessRule, evaluateExpression, h]

/-- C5 witness for the amended claim, at the syntactically invalid
condition `"("`. -/
theorem c5_throw_swallowed_as_pass_witness :
    evaluateExpressionImpl c5BadRule.condition (mkEvalContext c5Data c5Ctx) =
      Except.error () ∧
    executeBusinessRule c5BadRule c5Data c5Ctx =
      { ruleId := "badRule", passed := true, action := "validate",
        target := none, value := none, message := some "bad rule message" } :=
  ⟨rfl, c5_throw_swallowed_as_pass c5BadRule c5Data c5Ctx rfl⟩

/-- C3: a business rule fails (`passed = false`) carrying its declared
action exactly when its condition evaluates to `true` over the element
data merged with context; concretely, `implementationRequired`
(condition `implementation === "java" && !javaClass`) on a record with
`implementation = 'java'`, `javaClass = ''` yields `passed = false`
with `action = 'validate'`, and element validation of the Service Task
schema then reports that rule's message as an error with
`isValid = false`. -/
theorem c3_condition_gates_rule :
    (∀ (rule : BusinessRule) (elementData : Obj) (ctx : ValidationContext),
      ((executeBusinessRule rule elementData ctx).passed = false ↔
        evaluateExpression rule.condition (mkEvalContext elementData ctx) = true) ∧
      (executeBusinessRule rule elementData ctx).action = rule.action) ∧
    (executeBusinessRule implementationRequiredRule c3Data c3Ctx).passed = false ∧
    (executeBusinessRule implementationRequiredRule c3Data c3Ctx).action = "validate" ∧
    (∀ platform : JsPlatform,
      (performElementValidation platform serviceTaskSchema c3Data c3Ctx).isValid = false ∧
      { propertyId := "javaClass",
        message := "Java class is required when implementation type is \"Java Class\"",
        rule := "implementationRequired" } ∈
        (performElementValidation platform serviceTaskSchema c3Data c3Ctx).errors) := by
  refine ⟨?_, rfl, rfl, ?_⟩
  · intro rule elementData ctx
    refine ⟨?_, rfl⟩
    simp only [executeBusinessRule, Bool.not_eq_false']
  · intro platform
    constructor
    · rfl
    · exact List.Mem.tail _ (List.Mem.tail _ (List.Mem.head _))

/-- C2: a property whose conditional clause does not match the record's
current value of the depended-on property is omitted from every group
of the projected view, while its validation errors still flow into the
element's ValidationResult (conditional visibility never exempts a
property from validation). -/
theorem c2_hidden_property_still_validated :
    ∀ (platform : JsPlatform) (store : PropsStore) (elementId : String)
      (record : EnhancedElementProperties) (schema : ElementPropertySchema)
      (p : PropertyDefinition) (c : ConditionalClause),
      storeGet store elementId = some record →
      record.schema = some schema →
      p.conditional = some c →
      jsIncludes c.values (objGet record.properties c.dependsOn) = false →
      (∀ g ∈ projectedGroups store elementId, p ∉ g.properties) ∧
      (p ∈ schema.properties →
        ∀ e ∈ (validateProperty platform p (objGet record.properties p.name)
            record.properties (recordValidationContext record store)).errors,
          e ∈ (performElementValidation platform schema record.properties
            (recordValidationContext record store)).errors) := by
  intro platform store elementId record schema p c hstore hschema hcond hmiss
  constructor
  · intro g hg hp
    have hvis : ∀ q ∈ g.properties, isPropertyVisible record q = true := by
      intro q hq
      simp only [projectedGroups, hstore] at hg
      rcases List.mem_map.mp hg with ⟨g0, _, hg0⟩
      subst hg0
      exact (List.mem_filter.mp hq).2
    have h1 := hvis p hp
    rw [isPropertyVisible, hcond] at h1
    have h2 : jsIncludes c.values (objGet record.properties c.dependsOn) = true := h1
    rw [hmiss] at h2
    cases h2
  · intro hp e he
    exact validateProperty_errors_in_element_validation platform schema record.properties
      (recordValidationContext record store) p hp e he

/-- C2 witness: the Service-Task `javaClass` property (conditional on
`implementation ∈ ['java']`) with a record where
`implementation = 'expression'`. -/
theorem c2_hidden_property_still_validated_witness :
    (storeGet c2Store "s1" = some c2Record ∧
     c2Record.schema = some serviceTaskSchema ∧
     javaClassProp.conditional =
       some { dependsOn := "implementation", values := [JSValue.str "java"] } ∧
     jsIncludes [JSValue.str "java"] (objGet c2Record.properties "implementation") = false) ∧
    ((∀ g ∈ projectedGroups c2Store "s1", javaClassProp ∉ g.properties) ∧
     (javaClassProp ∈ serviceTaskSchema.properties →
       ∀ e ∈ (validateProperty stubPlatform javaClassProp
           (objGet c2Record.properties "javaClass") c2Record.properties
           (recordValidationContext c2Record c2Store)).errors,
         e ∈ (performElementValidation stubPlatform serviceTaskSchema c2Record.properties
           (recordValidationContext c2Record c2Store)).errors)) :=
  ⟨⟨rfl, rfl, rfl, rfl⟩,
   c2_hidden_property_still_validated stubPlatform c2Store "s1" c2Record serviceTaskSchema
     javaClassProp { dependsOn := "implementation", values := [JSValue.str "java"] }
     rfl rfl rfl rfl⟩

/-- C8: `setProperty` on an unknown elementId leaves the store
untouched and publishes nothing (the embedding is a total function, so
no exception can escape); on a live record it stores exactly
`setPropertyUpdatedRecord` — the named key set to the new value, every
other key unchanged, `lastModified` stamped, identity fields untouched,
every other element's record untouched — re-runs validation (and with
it the schema's business rules, folded into the validation result by
`performElementValidation`), and publishes. -/
theorem c8_set_property_frame :
    (∀ (platform : JsPlatform) (now : Nat) (store : PropsStore)
       (elementId propertyName : String) (value : JSValue),
      storeGet store elementId = none →
      setProperty platform now store elementId propertyName value = (store, false)) ∧
    (∀ (platform : JsPlatform) (now : Nat) (store : PropsStore)
       (elementId propertyName : String) (value : JSValue)
       (rec : EnhancedElementProperties),
      storeGet store elementId = some rec →
      (setProperty platform now store elementId propertyName value).2 = true ∧
      storeGet (setProperty platform now store elementId propertyName value).1 elementId =
        some (setPropertyUpdatedRecord platform now store elementId propertyName value rec) ∧
      objGet (setPropertyUpdatedRecord platform now store elementId propertyName
        value rec).properties propertyName = value ∧
      (∀ k, k ≠ propertyName →
        objGet (setPropertyUpdatedRecord platform now store elementId propertyName
          value rec).properties k = objGet rec.properties k) ∧
      (setPropertyUpdatedRecord platform now store elementId propertyName
        value rec).lastModified = now ∧
      (setPropertyUpdatedRecord platform now store elementId propertyName
        value rec).elementId = rec.elementId ∧
      (setPropertyUpdatedRecord platform now store elementId propertyName
        value rec).elementType = rec.elementType ∧
      (setPropertyUpdatedRecord platform now store elementId propertyName
        value rec).schema = rec.schema ∧
      (setPropertyUpdatedRecord platform now store elementId propertyName
        value rec).isReadonly = rec.isReadonly ∧
      (∀ other, other ≠ elementId →
        storeGet (setProperty platform now store elementId propertyName value).1 other =
          storeGet store other) ∧
      (∀ schema, rec.schema = some schema →
        (setPropertyUpdatedRecord platform now store elementId propertyName
          value rec).validationResult =
          some (performElementValidation platform schema
            (objSet rec.properties propertyName value)
            (recordValidationContext
              { rec with properties := objSet rec.properties propertyName value,
                         lastModified := now }
              (storeSet store elementId
                { rec with properties := objSet rec.properties propertyName value,
                           lastModified := now }))))) := by
  constructor
  · intro platform now store elementId propertyName value h
    simp [setProperty, h]
  · intro platform now store elementId propertyName value rec h
    have hset : setProperty platform now store elementId propertyName value =
        (storeSet (storeSet store elementId
          { rec with properties := objSet rec.properties propertyName value,
                     lastModified := now }) elementId
          (setPropertyUpdatedRecord platform now store elementId propertyName value rec),
         true) := by
      simp [setProperty, h, setPropertyUpdatedRecord]
    refine ⟨by rw [hset], ?_, ?_, ?_, ?_, ?_, ?_, ?_, ?_, ?_, ?_⟩
    · rw [hset]
      exact storeGet_storeSet_self _ _ _
    · rw [setPropertyUpdatedRecord]
      simp only [validateElementProperties_properties]
      exact objGet_objSet_self _ _ _
    · intro k hk
      rw [setPropertyUpdatedRecord]
      simp only [validateElementProperties_properties]
      exact objGet_objSet_ne _ _ _ _ (fun hcontra => hk hcontra.symm)
    · rw [setPropertyUpdatedRecord]
      simp only [validateElementProperties_lastModified]
    · rw [setPropertyUpdatedRecord]
      simp only [validateElementProperties_elementId]
    · rw [setPropertyUpdatedRecord]
      simp only [validateElementProperties_elementType]
    · rw [setPropertyUpdatedRecord]
      simp only [validateElementProperties_schema]
    · rw [setPropertyUpdatedRecord]
      simp only [validateElementProperties_isReadonly]
    · intro other hother
      rw [hset]
      have hne : elementId ≠ other := fun hcontra => hother hcontra.symm
      rw [storeGet_storeSet_ne _ _ _ _ hne, storeGet_storeSet_ne _ _ _ _ hne]
    · intro schema hs
      rw [setPropertyUpdatedRecord]
      exact validateElementProperties_result_of_schema _ _ _ _ hs

/-- C8 witness: a dead write against an absent elementId leaves the
two-record store unchanged, and a live write against `"a"` updates only
the named key, stamps the clock, and leaves `"b"` untouched. -/
theorem c8_set_property_frame_witness :
    (storeGet c8Store "missing" = none ∧
     setProperty stubPlatform 7 c8Store "missing" "x" (JSValue.str "new") =
       (c8Store, false)) ∧
    (storeGet c8Store "a" = some c8RecordA ∧
     (setProperty stubPlatform 7 c8Store "a" "x" (JSValue.str "new")).2 = true ∧
     objGet (setPropertyUpdatedRecord stubPlatform 7 c8Store "a" "x"
       (JSValue.str "new") c8RecordA).properties "x" = JSValue.str "new" ∧
     objGet (setPropertyUpdatedRecord stubPlatform 7 c8Store "a" "x"
       (JSValue.str "new") c8RecordA).properties "y" = objGet c8RecordA.properties "y" ∧
     (setPropertyUpdatedRecord stubPlatform 7 c8Store "a" "x"
       (JSValue.str "new") c8RecordA).lastModified = 7 ∧
     storeGet (setProperty stubPlatform 7 c8Store "a" "x" (JSValue.str "new")).1 "b" =
       storeGet c8Store "b") := by
  have hdead := c8_set_property_frame.1 stubPlatform 7 c8Store "missing" "x"
    (JSValue.str "new") rfl
  have hlive := c8_set_property_frame.2 stubPlatform 7 c8Store "a" "x"
    (JSValue.str "new") c8RecordA rfl
  refine ⟨⟨rfl, hdead⟩, rfl, hlive.1, hlive.2.2.1, ?_, hlive.2.2.2.2.1, ?_⟩
  · exact hlive.2.2.2.1 "y" (by decide)
  · exact hlive.2.2.2.2.2.2.2.2.2.1 "b" (by decide)

/-- C7: initializing an element against any registry schema produces a
record whose property-map keys are exactly the schema's declared
property identifiers — no missing and no extra keys. -/
theorem c7_initialized_record_keys :
    ∀ (platform : JsPlatform) (now : Nat) (store : PropsStore) (elementId : String)
      (element : BpmnElement) (t : String) (schema : ElementPropertySchema),
      elementTypeOf element = some t →
      getElementSchema t = some schema →
      ∃ rec, storeGet (initializeElementProperties platform ElementSchemas now store
          elementId element) elementId = some rec ∧
        ∀ k, k ∈ objKeys rec.properties ↔ k ∈ schema.properties.map (·.id) := by
  intro platform now store elementId element t schema h1 h2
  obtain ⟨rec, hlook, hprops, -⟩ :=
    initialize_lookup platform now store elementId element t schema h1 h2
  have h2f : List.find? (fun s => s.elementType == t) ElementSchemas = some schema := h2
  have hmem : schema ∈ ElementSchemas := List.mem_of_find?_eq_some h2f
  have hids : schema.properties.map (·.id) = schema.properties.map (·.name) :=
    List.map_congr_left (registry_id_eq_name schema hmem)
  have hpresent := registry_id_name_present schema hmem
  refine ⟨rec, hlook, fun k => ?_⟩
  rw [hprops, hids]
  exact mem_objKeys_initializedProperties platform store elementId element schema
    hpresent.1 hpresent.2 k

/-- C7 witness: a freshly selected End Event. -/
theorem c7_initialized_record_keys_witness :
    elementTypeOf c7Element = some "bpmn:EndEvent" ∧
    getElementSchema "bpmn:EndEvent" = some endEventSchema ∧
    ∃ rec, storeGet (initializeElementProperties stubPlatform ElementSchemas 3 []
        "end1" c7Element) "end1" = some rec ∧
      ∀ k, k ∈ objKeys rec.properties ↔ k ∈ endEventSchema.properties.map (·.id) :=
  ⟨rfl, rfl,
   c7_initialized_record_keys stubPlatform 3 [] "end1" c7Element "bpmn:EndEvent"
     endEventSchema rfl rfl⟩

/-- C1 counterexample: re-selecting element `e1` (whose record holds
the edited value `id = 'Edited'`) stores the business object's native
`id = 'Task_1'` instead — the native field wins over the existing
record value for the `id` property, contradicting the claimed
(1)-before-(3) precedence. -/
theorem c1_native_id_overrides_precedence :
    getElementSchema "bpmn:StartEvent" = some startEventSchema ∧
    commonId ∈ startEventSchema.properties ∧
    commonId.name = "id" ∧
    specInitialValue stubPlatform ((storeGet c1Store "e1").map (·.properties))
      c1Element commonId = JSValue.str "Edited" ∧
    c1StoredId = JSValue.str "Task_1" ∧
    c1StoredId ≠ specInitialValue stubPlatform ((storeGet c1Store "e1").map (·.properties))
      c1Element commonId := by
  refine ⟨rfl, ?_, rfl, rfl, rfl, ?_⟩
  · show commonId ∈ startEventProperties
    exact List.mem_cons_self _ _
  · intro h
    have h' : JSValue.str "Task_1" = JSValue.str "Edited" := h
    exact absurd (JSValue.str.inj h') (by decide)

/-- C1 (amended): the five-step precedence holds verbatim for every
schema property except those named `id` or `name`; for those two, a
truthy native `businessObject.id` / `businessObject.name` is written
over the resolved entry after the loop, taking precedence even over an
existing record value. -/
theorem c1_initial_value_precedence_amended :
    ∀ (platform : JsPlatform) (now : Nat) (store : PropsStore) (elementId : String)
      (element : BpmnElement) (t : String) (schema : ElementPropertySchema),
      elementTypeOf element = some t →
      getElementSchema t = some schema →
      ∃ rec, storeGet (initializeElementProperties platform ElementSchemas now store
          elementId element) elementId = some rec ∧
        (∀ pd ∈ schema.properties, pd.name ≠ "id" → pd.name ≠ "name" →
          objGet rec.properties pd.name =
            specInitialValue platform ((storeGet store elementId).map (·.properties))
              element pd) ∧
        (truthy (bizGet element "id") = true →
          objGet rec.properties "id" = bizGet element "id") ∧
        (truthy (bizGet element "name") = true →
          objGet rec.properties "name" = bizGet element "name") := by
  intro platform now store elementId element t schema h1 h2
  obtain ⟨rec, hlook, hprops, -⟩ :=
    initialize_lookup platform now store elementId element t schema h1 h2
  have h2f : List.find? (fun s => s.elementType == t) ElementSchemas = some schema := h2
  have hmem : schema ∈ ElementSchemas := List.mem_of_find?_eq_some h2f
  have hnd := registry_names_nodup schema hmem
  refine ⟨rec, hlook, ?_, ?_, ?_⟩
  · intro pd hpd hid hname
    rw [hprops,
      initializedProperties_objGet_other platform store elementId element schema pd
        hpd hnd hid hname]
    have hglue : (match storeGet store elementId with
        | some existingProps => existingProps.properties
        | none => []) =
        (match (storeGet store elementId).map (·.properties) with
         | some props => props
         | none => []) := by
      cases storeGet store elementId <;> rfl
    rw [hglue]
    exact initialPropertyValue_eq_spec platform element pd _
  · intro hi
    rw [hprops]
    exact initializedProperties_objGet_id platform store elementId element schema hi
  · intro hn
    rw [hprops]
    exact initializedProperties_objGet_name platform store elementId element schema hn

/-- C1 amended-claim witness: re-selecting the fixture element `e1`
applies the spec precedence to every non-`id`/`name` property and the
native-id override to `id`. -/
theorem c1_initial_value_precedence_amended_witness :
    elementTypeOf c1Element = some "bpmn:StartEvent" ∧
    getElementSchema "bpmn:StartEvent" = some startEventSchema ∧
    ∃ rec, storeGet (initializeElementProperties stubPlatform ElementSchemas 5 c1Store
        "e1" c1Element) "e1" = some rec ∧
      (∀ pd ∈ startEventSchema.properties, pd.name ≠ "id" → pd.name ≠ "name" →
        objGet rec.properties pd.name =
          specInitialValue stubPlatform ((storeGet c1Store "e1").map (·.properties))
            c1Element pd) ∧
      (truthy (bizGet c1Element "id") = true →
        objGet rec.properties "id" = bizGet c1Element "id") ∧
      (truthy (bizGet c1Element "name") = true →
        objGet rec.properties "name" = bizGet c1Element "name") :=
  ⟨rfl, rfl,
   c1_initial_value_precedence_amended stubPlatform 5 c1Store "e1" c1Element
     "bpmn:StartEvent" startEventSchema rfl rfl⟩
